import Mathlib

/-!
Shallow embedding of the task reconciliation engine of `src/modules/tasks.py`
(functions `_fetch_eligible_clients`, `_extract_influencer_doctors`,
`_fetch_target_products_simple`, `_create_doctor_task`, `create_plan_tasks`,
`create_tasks_for_new_client`, `create_tasks_from_product`).

The Firestore document store is modelled as in-memory lists of documents, one
list per collection.  Store scans become list filters, point lookups become
`List.find?`, and every document write is recorded in an explicit trace so that
theorems can talk about which writes and plan updates a run performs.  Store
operations that can fail in the source (plan updates, the chunked client
scans, the plans scan) take an explicit success oracle so that the error
handling paths of the source are part of the model.  Python values that the
source inspects dynamically (marketing tasks, the priority field, the
influencer flag) are modelled with a small dynamic value type.  Diagnostic
string payloads of error messages are abbreviated to stable prefixes; server
timestamps and the always-`None` fields of a created task are elided.
-/

/-- Scalar Python value as stored in a Firestore document field. -/
inductive PyVal where
  | none
  | bool (b : Bool)
  | int (n : Int)
  | str (s : String)
deriving DecidableEq, Repr

/-- Python truthiness of a scalar value. -/
def pyTruthy : PyVal → Bool
  | PyVal.none => false
  | PyVal.bool b => b
  | PyVal.int n => n != 0
  | PyVal.str s => s != ""

/-- Python `str()` of a scalar value. -/
def pyStr : PyVal → String
  | PyVal.none => "None"
  | PyVal.bool true => "True"
  | PyVal.bool false => "False"
  | PyVal.int n => toString n
  | PyVal.str s => s

/-- Python `repr()` of a scalar value (strings quoted), used by `str()` of a
dict. -/
def pyReprScalar : PyVal → String
  | PyVal.str s => "\x27" ++ s ++ "\x27"
  | v => pyStr v

/-- Python `str()` of a dict with scalar values. -/
def pyStrEntries (entries : List (String × PyVal)) : String :=
  "\x7b" ++
    String.intercalate ", "
      (entries.map (fun kv => "\x27" ++ kv.1 ++ "\x27: " ++ pyReprScalar kv.2)) ++
  "\x7d"

/-- Python `dict.get(key)` over an association list: the value under the key,
or `None` when the key is absent. -/
def dictGet (entries : List (String × PyVal)) (k : String) : PyVal :=
  match entries.lookup k with
  | some v => v
  | Option.none => PyVal.none

/-- Dynamically typed document value: either a scalar or a dict of scalars.
Used for the marketing task entries of a product, the `priority` field of a
client and the `targetProductSales` items of a plan, which the source probes
with `isinstance(..., dict)`. -/
inductive DVal where
  | scalar (v : PyVal)
  | dict (entries : List (String × PyVal))
deriving DecidableEq, Repr

/-- Python `.strip()`: drop ASCII whitespace from both ends of a string. -/
def pyStrip (s : String) : String :=
  String.mk (((s.data.dropWhile Char.isWhitespace).reverse.dropWhile
    Char.isWhitespace).reverse)

/-- Marketing task name used for the duplicate lookup in `_create_doctor_task`:
`marketing_task.get("name") or marketing_task.get("id") or str(marketing_task)`
for a dict, `str(marketing_task)` for a scalar. -/
def mtNameVal : DVal → PyVal
  | DVal.dict entries =>
      let n := dictGet entries "name"
      if pyTruthy n then n
      else
        let i := dictGet entries "id"
        if pyTruthy i then i
        else PyVal.str (pyStrEntries entries)
  | DVal.scalar v => PyVal.str (pyStr v)

/-- Marketing task value stored on a created task:
`marketing_task` for a dict, `marketing_task if marketing_task else dict()`
for a scalar. -/
def mtDataVal : DVal → DVal
  | DVal.dict entries => DVal.dict entries
  | DVal.scalar v => if pyTruthy v then DVal.scalar v else DVal.dict []

/-- Firestore equality filter of a stored field value against a scalar query
value: a map field never matches a scalar. -/
def dvalEqPy : DVal → PyVal → Bool
  | DVal.scalar w, v => w == v
  | DVal.dict _, _ => false

/-- Priority written on a created task, from the `priority` field of the
client: a dict yields `get("name") or get("value") or "medium"`, a string is
used as is, anything else (including an absent field) defaults to
`"medium"`. -/
def priorityNameVal (p : DVal) : PyVal :=
  match p with
  | DVal.dict entries =>
      let n := dictGet entries "name"
      if pyTruthy n then n
      else
        let v := dictGet entries "value"
        if pyTruthy v then v else PyVal.str "medium"
  | DVal.scalar (PyVal.str s) => PyVal.str s
  | DVal.scalar _ => PyVal.str "medium"

/-- Doctor entry inside `additionalInfo.doctors` of a client document.
The name, phone and email fields already carry the `.get(..., "")` default
of the source; the influencer flag keeps presence explicit because the source
reads it with `doctor.get("isInfluencer", False)`. -/
structure DoctorEntry where
  name : String
  phone : String
  email : String
  isInfluencer : Option PyVal
deriving DecidableEq, Repr

/-- Doctor record produced by `_extract_influencer_doctors`. -/
structure DoctorRec where
  name : String
  phone : String
  email : String
deriving DecidableEq, Repr

/-- Client document.  `additionalInfo` models `additionalInfo.doctors`:
`Option.none` stands for an absent or falsy `additionalInfo`. -/
structure ClientDoc where
  id : String
  city : String
  department : String
  state : String
  priority : DVal
  additionalInfo : Option (List DoctorEntry)
deriving DecidableEq, Repr

/-- Product document. -/
structure ProductDoc where
  id : String
  departmentsIds : List String
  marketingTasks : List DVal
deriving DecidableEq, Repr

/-- Plan document; also the shape of the plan payload of `create_plan_tasks`. -/
structure PlanDoc where
  id : String
  cities : List String
  departmentsIds : List String
  clientsIds : List String
  targetProductSales : List DVal
  salesRepresentativeIds : List String
  salesManagerId : String
deriving DecidableEq, Repr

/-- Task document as written by `_create_doctor_task`.  The always-`None`
fields (`targetDate`, `cancelReason`, `visitResult`, `note`) and the server
timestamps are elided. -/
structure TaskDoc where
  taskType : String
  salesRepresentativeIds : List String
  salesManagerId : String
  assignedToId : String
  planId : String
  clientId : String
  productId : String
  status : String
  state : String
  priority : PyVal
  doctorName : String
  marketingTask : DVal
deriving DecidableEq, Repr

/-- The document store: one list of documents per collection. -/
structure Store where
  clients : List ClientDoc
  products : List ProductDoc
  plans : List PlanDoc
  tasks : List TaskDoc
deriving DecidableEq, Repr

/-- Sales assignment data read from a plan by `_create_doctor_task`. -/
structure PlanMeta where
  salesRepresentativeIds : List String
  salesManagerId : String
deriving DecidableEq, Repr

/-- PlanMeta of a plan document or payload. -/
def planMeta (p : PlanDoc) : PlanMeta :=
  { salesRepresentativeIds := p.salesRepresentativeIds
    salesManagerId := p.salesManagerId }

/-- Translation of `_extract_influencer_doctors`: empty list when
`additionalInfo` (respectively its `doctors` list) is absent or falsy,
otherwise the doctors whose `isInfluencer` value is truthy. -/
def extractInfluencerDoctors (client : ClientDoc) : List DoctorRec :=
  match client.additionalInfo with
  | Option.none => []
  | some doctors =>
      if doctors.isEmpty then []
      else
        (doctors.filter
            (fun d => pyTruthy (d.isInfluencer.getD (PyVal.bool false)))).map
          (fun d => { name := d.name, phone := d.phone, email := d.email })

/-- Identity tuple of a task for duplicate detection, with the marketing task
name derived from the stored marketing task value. -/
def identityTuple (t : TaskDoc) : String × String × String × PyVal × String :=
  (t.planId, t.clientId, t.productId, mtNameVal t.marketingTask, t.doctorName)

/-- Accumulator-based chunking; `chunksOf n l` is the list of consecutive
slices `l[0:n], l[n:2n], ...` that the Python loops
`for i in range(0, len(l), batch_size)` iterate over (structural recursion so
that the kernel can evaluate it). -/
def chunkAux (n : Nat) : List α → List α → List (List α)
  | acc, [] => if acc.isEmpty then [] else [acc]
  | acc, x :: xs =>
      if n ≤ acc.length + 1 then (acc ++ [x]) :: chunkAux n [] xs
      else chunkAux n (acc ++ [x]) xs

/-- Batches of size at most `n` of a list, in order. -/
def chunksOf (n : Nat) (l : List α) : List (List α) := chunkAux n [] l

/-- Firestore filter issued for a batch: an equality filter when the batch is
a single value, a membership (`in`) filter otherwise. -/
def inFilter (chunk : List String) (v : String) : Bool :=
  match chunk with
  | [x] => v == x
  | _ => chunk.contains v

/-- Duplicate removal by client id, keeping the first occurrence, as in the
`seen_ids` loop of `_fetch_eligible_clients`. -/
def dedupById : List ClientDoc → List String → List ClientDoc
  | [], _ => []
  | c :: rest, seen =>
      if seen.contains c.id then dedupById rest seen
      else c :: dedupById rest (c.id :: seen)

/-- Store scan of one department batch with the approved-state filter. -/
def scanDeptState (clients : List ClientDoc) (dchunk : List String) :
    List ClientDoc :=
  clients.filter (fun c => inFilter dchunk c.department && c.state == "approved")

/-- Store scan of one department batch and one city batch with the
approved-state filter. -/
def scanDeptCityState (clients : List ClientDoc) (dchunk cchunk : List String) :
    List ClientDoc :=
  clients.filter (fun c =>
    inFilter dchunk c.department && inFilter cchunk c.city &&
    c.state == "approved")

/-- Eligibility strategy of `_fetch_eligible_clients` for more than 10 cities:
scan each department batch filtered by approved state, then keep in memory the
clients whose stripped city is in the stripped requested city set and whose
stripped state is approved.  `failChunk` injects a per-batch scan failure
(the batch is recorded as errored and skipped). -/
def strategyManyCities (departmentIds cities : List String)
    (clients : List ClientDoc) (failChunk : List String → Bool) :
    List ClientDoc :=
  let citiesSet := cities.map (fun c => pyStrip c)
  (chunksOf 10 departmentIds).foldl
    (fun acc dchunk =>
      if failChunk dchunk then acc
      else
        acc ++ (scanDeptState clients dchunk).filter
          (fun c =>
            citiesSet.contains (pyStrip c.city) &&
            pyStrip c.state == "approved"))
    []

/-- Eligibility strategy of `_fetch_eligible_clients` for at most 10 cities:
one store scan per department batch and city batch pair, with equality or
membership filters on the raw (unstripped) values.  `failChunk` injects a
per-pair scan failure. -/
def strategyFewCities (departmentIds cities : List String)
    (clients : List ClientDoc) (failChunk : List String → List String → Bool) :
    List ClientDoc :=
  (chunksOf 10 departmentIds).foldl
    (fun acc dchunk =>
      (chunksOf 10 cities).foldl
        (fun acc2 cchunk =>
          if failChunk dchunk cchunk then acc2
          else acc2 ++ scanDeptCityState clients dchunk cchunk)
        acc)
    []

/-- Merged, id-deduplicated client set computed by `_fetch_eligible_clients`:
the strategy switch on `len(cities) > 10`, then the `seen_ids` dedup. -/
def mergedEligible (departmentIds cities : List String)
    (clients : List ClientDoc) (failMany : List String → Bool)
    (failFew : List String → List String → Bool) : List ClientDoc :=
  dedupById
    (if cities.length > 10 then
      strategyManyCities departmentIds cities clients failMany
     else strategyFewCities departmentIds cities clients failFew)
    []

/-- Translation of `_fetch_eligible_clients`.  The diagnostic sampling reads
only shape the error message, which is abbreviated here to its stable prefix;
the empty-database check is kept because it raises.  The strategy switch on
`len(cities) > 10`, the per-chunk failure tolerance and the id dedup are in
`mergedEligible`; the raise happens exactly when that merged set is empty. -/
def fetchEligibleClients (departmentIds cities : List String)
    (clients : List ClientDoc) (failMany : List String → Bool)
    (failFew : List String → List String → Bool) :
    Except String (List ClientDoc) :=
  if departmentIds.isEmpty then Except.error "No department IDs provided"
  else if cities.isEmpty then Except.error "No cities provided"
  else if clients.isEmpty then
    Except.error
      "Failed to fetch eligible clients: Database is empty - no clients found in database"
  else
    let uniqueClients := mergedEligible departmentIds cities clients failMany failFew
    if uniqueClients.isEmpty then
      Except.error "No clients found matching the criteria"
    else Except.ok uniqueClients

/-- Translation of `_fetch_target_products_simple`: scan the whole products
collection keeping the documents whose id is in the requested id set, raise
only when the kept list is empty. -/
def fetchTargetProductsSimple (productIds : List PyVal)
    (products : List ProductDoc) : Except String (List ProductDoc) :=
  if productIds.isEmpty then Except.error "No product IDs provided"
  else
    let found := products.filter (fun p => productIds.contains (PyVal.str p.id))
    if found.isEmpty then Except.error "No products found for IDs"
    else Except.ok found

/-- Product id extraction from `targetProductSales`: dict items only, keeping
truthy `productId` values. -/
def extractProductIds (targetProductSales : List DVal) : List PyVal :=
  targetProductSales.filterMap (fun item =>
    match item with
    | DVal.dict entries =>
        let pid := dictGet entries "productId"
        if pyTruthy pid then some pid else Option.none
    | DVal.scalar _ => Option.none)

/-- Duplicate lookup filter of `_create_doctor_task`: all five identity
fields, with the stored `marketingTask` field compared against the derived
scalar name. -/
def taskMatchesQuery (planId clientId productId : String) (mtName : PyVal)
    (doctorName : String) (t : TaskDoc) : Bool :=
  t.planId == planId && t.clientId == clientId && t.productId == productId &&
    dvalEqPy t.marketingTask mtName && t.doctorName == doctorName

/-- Task document built by `_create_doctor_task` for one tuple. -/
def buildTask (planId : String) (meta : PlanMeta) (client : ClientDoc)
    (product : ProductDoc) (mt : DVal) (doctor : DoctorRec) : TaskDoc :=
  { taskType := "planned"
    salesRepresentativeIds := meta.salesRepresentativeIds
    salesManagerId := meta.salesManagerId
    assignedToId := meta.salesRepresentativeIds.headD ""
    planId := planId
    clientId := client.id
    productId := product.id
    status := "قيد الانجاز"
    state := "قيد المراجعة"
    priority := priorityNameVal client.priority
    doctorName := doctor.name
    marketingTask := mtDataVal mt }

/-- Translation of `_create_doctor_task` against the current tasks collection:
`Option.none` when the duplicate lookup finds a match (no write), otherwise the
new task document handed to `set`. -/
def createDoctorTask (planId : String) (meta : PlanMeta) (client : ClientDoc)
    (product : ProductDoc) (mt : DVal) (doctor : DoctorRec)
    (tasks : List TaskDoc) : Option TaskDoc :=
  let mtName := mtNameVal mt
  if tasks.any (taskMatchesQuery planId client.id product.id mtName doctor.name)
  then Option.none
  else some (buildTask planId meta client product mt doctor)

/-- Running synthesis state: counters, the live tasks collection and the trace
of write commits (each `set` of one task is a singleton commit). -/
structure SynthSt where
  created : Nat
  skipped : Nat
  tasks : List TaskDoc
  commits : List (List TaskDoc)
deriving DecidableEq, Repr

/-- Innermost loop: one doctor, one product, its marketing tasks. -/
def synthMarketingTasks (planId : String) (meta : PlanMeta) (client : ClientDoc)
    (product : ProductDoc) (doctor : DoctorRec) :
    List DVal → SynthSt → SynthSt
  | [], st => st
  | mt :: rest, st =>
      match createDoctorTask planId meta client product mt doctor st.tasks with
      | some t =>
          synthMarketingTasks planId meta client product doctor rest
            { created := st.created + 1, skipped := st.skipped,
              tasks := st.tasks ++ [t], commits := st.commits ++ [[t]] }
      | Option.none =>
          synthMarketingTasks planId meta client product doctor rest
            { st with skipped := st.skipped + 1 }

/-- Product loop for one doctor; a product with no marketing tasks is
skipped. -/
def synthProducts (planId : String) (meta : PlanMeta) (client : ClientDoc)
    (doctor : DoctorRec) : List ProductDoc → SynthSt → SynthSt
  | [], st => st
  | product :: rest, st =>
      let mts := product.marketingTasks
      let st2 :=
        if mts.isEmpty then st
        else synthMarketingTasks planId meta client product doctor mts st
      synthProducts planId meta client doctor rest st2

/-- Doctor loop for one client. -/
def synthDoctors (planId : String) (meta : PlanMeta) (client : ClientDoc)
    (products : List ProductDoc) : List DoctorRec → SynthSt → SynthSt
  | [], st => st
  | doctor :: rest, st =>
      synthDoctors planId meta client products rest
        (synthProducts planId meta client doctor products st)

/-- Firestore `ArrayUnion`: append the values that are not already present,
in order, each once. -/
def arrayUnion (old : List String) : List String → List String
  | [] => old
  | x :: xs => if old.contains x then arrayUnion old xs
               else arrayUnion (old ++ [x]) xs

/-- Plan update calls issued by the engine, with the outcome of each call. -/
inductive PlanUpdateEvent where
  | setClientsIds (planId : String) (ids : List String) (ok : Bool)
  | unionClientsIds (planId : String) (ids : List String) (ok : Bool)
  | setTargetProductSales (planId : String) (items : List DVal) (ok : Bool)
deriving DecidableEq, Repr

/-- Overwrite of the `clientsIds` field of a plan document
(the `plan_ref.update` of `create_plan_tasks`). -/
def setPlanClientsIds (plans : List PlanDoc) (planId : String)
    (ids : List String) : List PlanDoc :=
  plans.map (fun p => if p.id == planId then { p with clientsIds := ids } else p)

/-- `ArrayUnion` update of the `clientsIds` field of a plan document. -/
def unionPlanClientsIds (plans : List PlanDoc) (planId : String)
    (ids : List String) : List PlanDoc :=
  plans.map (fun p =>
    if p.id == planId then { p with clientsIds := arrayUnion p.clientsIds ids }
    else p)

/-- Overwrite of the `targetProductSales` field of a plan document. -/
def setPlanTargetProductSales (plans : List PlanDoc) (planId : String)
    (items : List DVal) : List PlanDoc :=
  plans.map (fun p =>
    if p.id == planId then { p with targetProductSales := items } else p)

/-- Response of `create_plan_tasks` (fields that carry behavior; human
readable message strings are elided). -/
structure PlanTasksResp where
  success : Bool
  status : Nat
  error : Option String := Option.none
  tasksCreated : Nat := 0
  tasksSkipped : Nat := 0
  clientsProcessed : Nat := 0
  clientsIds : List String := []
  clientsWithoutInfluencerDoctors : Nat := 0
  influencerDoctorsProcessed : Nat := 0
  productsProcessed : Nat := 0
deriving DecidableEq, Repr

/-- Outcome of one run of `create_plan_tasks`: the response, the store after
the run, the trace of task write commits and the trace of plan updates. -/
structure PlanTasksOut where
  resp : PlanTasksResp
  store : Store
  commits : List (List TaskDoc)
  planUpdates : List PlanUpdateEvent
deriving DecidableEq, Repr

/-- Client loop state of `create_plan_tasks`. -/
structure ClientLoopSt where
  st : SynthSt
  clientsWithoutDoctors : Nat
  influencerCount : Nat
deriving DecidableEq, Repr

/-- Client loop of `create_plan_tasks`: clients without influencer doctors are
counted and skipped, otherwise the doctor/product/marketing-task loops run. -/
def synthClients (planId : String) (meta : PlanMeta)
    (products : List ProductDoc) : List ClientDoc → ClientLoopSt → ClientLoopSt
  | [], acc => acc
  | client :: rest, acc =>
      let docs := extractInfluencerDoctors client
      if docs.isEmpty then
        synthClients planId meta products rest
          { acc with clientsWithoutDoctors := acc.clientsWithoutDoctors + 1 }
      else
        synthClients planId meta products rest
          { st := synthDoctors planId meta client products docs acc.st
            clientsWithoutDoctors := acc.clientsWithoutDoctors
            influencerCount := acc.influencerCount + docs.length }

/-- Error response labelled with a 400 status, as returned by the validation
and exception paths of `create_plan_tasks`. -/
def planTasksErr (s : Store) (msg : String) : PlanTasksOut :=
  { resp := { success := false, status := 400, error := some msg }
    store := s, commits := [], planUpdates := [] }

/-- Translation of `create_plan_tasks`.  `payload` is the request plan data
(`Option.none` models a request without a `plan` key); `planUpdateOk` injects
the outcome of the `clientsIds` overwrite, whose failure is only logged;
`failMany`/`failFew` inject chunk scan failures of the eligibility
resolver. -/
def createPlanTasks (payload : Option PlanDoc) (s : Store) (planUpdateOk : Bool)
    (failMany : List String → Bool)
    (failFew : List String → List String → Bool) : PlanTasksOut :=
  match payload with
  | Option.none => planTasksErr s "Plan data is required"
  | some plan =>
    if plan.id == "" then planTasksErr s "Plan ID is required and must not be empty"
    else if plan.targetProductSales.isEmpty then
      planTasksErr s "Plan has no target products"
    else
      let productIds := extractProductIds plan.targetProductSales
      if productIds.isEmpty then
        planTasksErr s "No effective product IDs found in targetProductSales"
      else if plan.departmentsIds.isEmpty then planTasksErr s "Plan has no departments"
      else if plan.cities.isEmpty then planTasksErr s "Plan has no cities"
      else
        match fetchTargetProductsSimple productIds s.products with
        | Except.error e => planTasksErr s e
        | Except.ok products =>
          match fetchEligibleClients plan.departmentsIds plan.cities s.clients
              failMany failFew with
          | Except.error e => planTasksErr s e
          | Except.ok clients =>
            let clientIds := clients.map (fun c => c.id)
            let plansAfter :=
              if planUpdateOk then setPlanClientsIds s.plans plan.id clientIds
              else s.plans
            let loop :=
              synthClients plan.id (planMeta plan) products clients
                { st := { created := 0, skipped := 0, tasks := s.tasks,
                          commits := [] },
                  clientsWithoutDoctors := 0, influencerCount := 0 }
            { resp := { success := true, status := 200,
                        tasksCreated := loop.st.created,
                        tasksSkipped := loop.st.skipped,
                        clientsProcessed := clients.length,
                        clientsIds := clientIds,
                        clientsWithoutInfluencerDoctors := loop.clientsWithoutDoctors,
                        influencerDoctorsProcessed := loop.influencerCount,
                        productsProcessed := products.length }
              store := { s with plans := plansAfter, tasks := loop.st.tasks }
              commits := loop.st.commits
              planUpdates := [PlanUpdateEvent.setClientsIds plan.id clientIds planUpdateOk] }

/-- Response of `create_tasks_for_new_client`. -/
structure NewClientResp where
  success : Bool
  status : Nat
  error : Option String := Option.none
  tasksCreated : Nat := 0
  tasksSkipped : Nat := 0
  matchingPlans : Nat := 0
  plansProcessed : Nat := 0
  taskErrors : List String := []
deriving DecidableEq, Repr

/-- Outcome of one run of `create_tasks_for_new_client`. -/
structure NewClientOut where
  resp : NewClientResp
  store : Store
  commits : List (List TaskDoc)
  planUpdates : List PlanUpdateEvent
deriving DecidableEq, Repr

/-- Plans loop state of `create_tasks_for_new_client`: synthesis state, the
live plans collection, accumulated task errors, plan update trace and the
count of processed plans. -/
structure NewClientPlansSt where
  st : SynthSt
  plans : List PlanDoc
  taskErrors : List String
  planUpdates : List PlanUpdateEvent
  plansProcessed : Nat
deriving DecidableEq, Repr

/-- Per-plan product resolution of `create_tasks_for_new_client`: fetch each
product id (a non-string id never resolves to a document) and keep the
products whose `departmentsIds` contains the department of the client. -/
def eligibleProductsFor (products : List ProductDoc) (department : String)
    (productIds : List PyVal) : List ProductDoc :=
  productIds.filterMap (fun pid =>
    match pid with
    | PyVal.str pidStr =>
        match products.find? (fun p => p.id == pidStr) with
        | some product =>
            if product.departmentsIds.contains department then some product
            else Option.none
        | Option.none => Option.none
    | _ => Option.none)

/-- Plans loop of `create_tasks_for_new_client`: per matching plan, resolve
and filter products, run synthesis for the single client, then `ArrayUnion`
the client id into the clientsIds of the plan (a failed union is recorded in
the task errors and does not fail the run). -/
def newClientPlansLoop (client : ClientDoc) (products : List ProductDoc)
    (doctors : List DoctorRec) (unionOk : String → Bool) :
    List PlanDoc → NewClientPlansSt → NewClientPlansSt
  | [], acc => acc
  | plan :: rest, acc =>
      if plan.id == "" then newClientPlansLoop client products doctors unionOk rest acc
      else if plan.targetProductSales.isEmpty then
        newClientPlansLoop client products doctors unionOk rest acc
      else
        let productIds := extractProductIds plan.targetProductSales
        if productIds.isEmpty then
          newClientPlansLoop client products doctors unionOk rest acc
        else
          let eligibleProducts :=
            eligibleProductsFor products client.department productIds
          if eligibleProducts.isEmpty then
            newClientPlansLoop client products doctors unionOk rest acc
          else
            let st2 :=
              synthDoctors plan.id (planMeta plan) client eligibleProducts
                doctors acc.st
            let ok := unionOk plan.id
            let acc2 : NewClientPlansSt :=
              { st := st2
                plans :=
                  if ok then unionPlanClientsIds acc.plans plan.id [client.id]
                  else acc.plans
                taskErrors :=
                  if ok then acc.taskErrors
                  else acc.taskErrors ++ ["Failed to update plan clientsIds"]
                planUpdates :=
                  acc.planUpdates ++
                    [PlanUpdateEvent.unionClientsIds plan.id [client.id] ok]
                plansProcessed := acc.plansProcessed + 1 }
            newClientPlansLoop client products doctors unionOk rest acc2

/-- Error response of `create_tasks_for_new_client` with a given status. -/
def newClientErr (s : Store) (status : Nat) (msg : String) : NewClientOut :=
  { resp := { success := false, status := status, error := some msg }
    store := s, commits := [], planUpdates := [] }

/-- Successful no-op response of `create_tasks_for_new_client`. -/
def newClientNoop (s : Store) (matching : Nat) : NewClientOut :=
  { resp := { success := true, status := 200, matchingPlans := matching }
    store := s, commits := [], planUpdates := [] }

/-- Translation of `create_tasks_for_new_client`.  `payload` is the request
client data; `plansQueryOk` injects the outcome of the plans collection scan;
`unionOk` injects, per plan id, the outcome of the `clientsIds` union
update. -/
def createTasksForNewClient (payload : Option ClientDoc) (s : Store)
    (plansQueryOk : Bool) (unionOk : String → Bool) : NewClientOut :=
  match payload with
  | Option.none => newClientErr s 400 "Client data is required"
  | some client =>
    if client.id == "" then
      newClientErr s 400 "Client ID is required and must not be empty"
    else if client.city == "" then newClientErr s 400 "Client city is required"
    else if client.department == "" then
      newClientErr s 400 "Client department is required"
    else if client.state != "approved" then newClientNoop s 0
    else if !plansQueryOk then newClientErr s 500 "Failed to query plans"
    else
      let matchingPlans := s.plans.filter (fun p =>
        p.cities.contains client.city &&
        p.departmentsIds.contains client.department &&
        !(p.clientsIds.contains client.id))
      if matchingPlans.isEmpty then newClientNoop s 0
      else
        let doctors := extractInfluencerDoctors client
        if doctors.isEmpty then newClientNoop s matchingPlans.length
        else
          let out :=
            newClientPlansLoop client s.products doctors unionOk matchingPlans
              { st := { created := 0, skipped := 0, tasks := s.tasks,
                        commits := [] },
                plans := s.plans, taskErrors := [], planUpdates := [],
                plansProcessed := 0 }
          { resp := { success := true, status := 200,
                      tasksCreated := out.st.created,
                      tasksSkipped := out.st.skipped,
                      matchingPlans := matchingPlans.length,
                      plansProcessed := out.plansProcessed,
                      taskErrors := out.taskErrors }
            store := { s with plans := out.plans, tasks := out.st.tasks }
            commits := out.st.commits
            planUpdates := out.planUpdates }

/-- Response of `create_tasks_from_product`. -/
structure ProductResp where
  success : Bool
  status : Nat
  error : Option String := Option.none
  tasksCreated : Nat := 0
  tasksSkipped : Nat := 0
  eligibleClients : Nat := 0
  clientsProcessed : Nat := 0
  newClientsAddedToPlan : Nat := 0
  taskErrors : List String := []
deriving DecidableEq, Repr

/-- Outcome of one run of `create_tasks_from_product`. -/
structure ProductOut where
  resp : ProductResp
  store : Store
  commits : List (List TaskDoc)
  planUpdates : List PlanUpdateEvent
deriving DecidableEq, Repr

/-- Client loop state of `create_tasks_from_product`. -/
structure ProductClientsSt where
  st : SynthSt
  newClientIds : List String
  processed : Nat
deriving DecidableEq, Repr

/-- Client loop of `create_tasks_from_product`: clients with a falsy id or
without influencer doctors are skipped; for the others the doctor and
marketing-task loops of the single product run and the client id is recorded
for the plan update. -/
def productClientsLoop (planId : String) (meta : PlanMeta)
    (product : ProductDoc) : List ClientDoc → ProductClientsSt → ProductClientsSt
  | [], acc => acc
  | client :: rest, acc =>
      if client.id == "" then productClientsLoop planId meta product rest acc
      else
        let doctors := extractInfluencerDoctors client
        if doctors.isEmpty then productClientsLoop planId meta product rest acc
        else
          productClientsLoop planId meta product rest
            { st := synthDoctors planId meta client [product] doctors acc.st
              newClientIds := acc.newClientIds ++ [client.id]
              processed := acc.processed + 1 }

/-- Eligible clients of `create_tasks_from_product`: department batches of
size 10 with an `in` filter and the approved state filter, then an in-memory
check that the (truthy) city of the client is one of the cities of the plan.
No id dedup is performed here. -/
def productEligibleClients (clients : List ClientDoc)
    (productDepartments planCities : List String) : List ClientDoc :=
  (chunksOf 10 productDepartments).foldl
    (fun acc batch =>
      acc ++
        (clients.filter (fun c =>
          batch.contains c.department && c.state == "approved")).filter
          (fun c => c.city != "" && planCities.contains c.city))
    []

/-- Error response of `create_tasks_from_product`; the 500 path after task
creation keeps the created tasks in the store and reports their count. -/
def productErr (s : Store) (status : Nat) (msg : String) (created : Nat)
    (commits : List (List TaskDoc)) (planUpdates : List PlanUpdateEvent) :
    ProductOut :=
  { resp := { success := false, status := status, error := some msg,
              tasksCreated := created }
    store := s, commits := commits, planUpdates := planUpdates }

/-- Successful no-op response of `create_tasks_from_product` (missing
departments, cities, eligible clients or marketing tasks). -/
def productNoop (s : Store) (eligible : Nat) : ProductOut :=
  { resp := { success := true, status := 200, eligibleClients := eligible }
    store := s, commits := [], planUpdates := [] }

/-- Final phase of `create_tasks_from_product`, after task synthesis: the
`targetProductSales` append is attempted first; its failure returns a 500
response that keeps and reports the created tasks and never reaches the
`clientsIds` union.  On success, the union update runs only when there are
new client ids, and a union failure is recorded in the task errors without
failing the run. -/
def productUpdatePhase (productId planId : String) (sales : PyVal)
    (plan : PlanDoc) (s : Store) (loop : ProductClientsSt)
    (eligibleCount : Nat) (tpsOk cidsOk : Bool) : ProductOut :=
  let storeWithTasks := { s with tasks := loop.st.tasks }
  let newItems :=
    plan.targetProductSales ++
      [DVal.dict [("productId", PyVal.str productId), ("targetSales", sales)]]
  if !tpsOk then
    productErr storeWithTasks 500 "Failed to update plan targetProductSales"
      loop.st.created loop.st.commits
      [PlanUpdateEvent.setTargetProductSales planId newItems false]
  else
    let plansAfterTps := setPlanTargetProductSales s.plans planId newItems
    let clientsToAdd :=
      loop.newClientIds.filter (fun i => !(plan.clientsIds.contains i))
    let tpsEvent := PlanUpdateEvent.setTargetProductSales planId newItems true
    if clientsToAdd.isEmpty then
      { resp := { success := true, status := 200,
                  tasksCreated := loop.st.created,
                  tasksSkipped := loop.st.skipped,
                  eligibleClients := eligibleCount,
                  clientsProcessed := loop.processed,
                  newClientsAddedToPlan := 0 }
        store := { storeWithTasks with plans := plansAfterTps }
        commits := loop.st.commits
        planUpdates := [tpsEvent] }
    else
      let cidsEvent := PlanUpdateEvent.unionClientsIds planId clientsToAdd cidsOk
      let plansFinal :=
        if cidsOk then unionPlanClientsIds plansAfterTps planId clientsToAdd
        else plansAfterTps
      { resp := { success := true, status := 200,
                  tasksCreated := loop.st.created,
                  tasksSkipped := loop.st.skipped,
                  eligibleClients := eligibleCount,
                  clientsProcessed := loop.processed,
                  newClientsAddedToPlan := clientsToAdd.length,
                  taskErrors :=
                    if cidsOk then []
                    else ["Failed to update plan clientsIds"] }
        store := { storeWithTasks with plans := plansFinal }
        commits := loop.st.commits
        planUpdates := [tpsEvent, cidsEvent] }

/-- Eligibility, synthesis and update phases of `create_tasks_from_product`,
entered after the plan and product have been resolved and validated. -/
def productEligiblePhase (productId planId : String) (sales : PyVal)
    (plan : PlanDoc) (product : ProductDoc) (s : Store)
    (clientsQueryOk tpsOk cidsOk : Bool) : ProductOut :=
  if product.departmentsIds.isEmpty then productNoop s 0
  else if plan.cities.isEmpty then productNoop s 0
  else if !clientsQueryOk then productErr s 500 "Failed to query clients" 0 [] []
  else
    let eligibleClients :=
      productEligibleClients s.clients product.departmentsIds plan.cities
    if eligibleClients.isEmpty then productNoop s 0
    else if product.marketingTasks.isEmpty then
      productNoop s eligibleClients.length
    else
      productUpdatePhase productId planId sales plan s
        (productClientsLoop planId (planMeta plan) product eligibleClients
          { st := { created := 0, skipped := 0, tasks := s.tasks, commits := [] },
            newClientIds := [], processed := 0 })
        eligibleClients.length tpsOk cidsOk

/-- Translation of `create_tasks_from_product`.  The request carries
`productId`, `planId` (empty string models a falsy or absent value) and
`targetSales` (`Option.none` models an absent value).  `clientsQueryOk`
injects the outcome of the batched clients query; `tpsOk` and `cidsOk` inject
the outcomes of the two plan updates. -/
def createTasksFromProduct (productId planId : String)
    (targetSales : Option PyVal) (s : Store) (clientsQueryOk : Bool)
    (tpsOk : Bool) (cidsOk : Bool) : ProductOut :=
  if productId == "" then
    productErr s 400 "Product ID is required and must not be empty" 0 [] []
  else if planId == "" then
    productErr s 400 "Plan ID is required and must not be empty" 0 [] []
  else
    match targetSales with
    | Option.none => productErr s 400 "Target sales is required" 0 [] []
    | some sales =>
      match s.plans.find? (fun p => p.id == planId) with
      | Option.none => productErr s 404 "Plan not found" 0 [] []
      | some plan =>
        if plan.targetProductSales.any (fun item =>
            match item with
            | DVal.dict entries =>
                dictGet entries "productId" == PyVal.str productId
            | DVal.scalar _ => false) then
          productErr s 400
            "Can\x27t add this product to this plan, it\x27s added before" 0 [] []
        else
          match s.products.find? (fun p => p.id == productId) with
          | Option.none => productErr s 404 "Product not found" 0 [] []
          | some product =>
            productEligiblePhase productId planId sales plan product s
              clientsQueryOk tpsOk cidsOk

/-- Demo doctor used by the concrete scenarios. -/
def demoDoctor : DoctorEntry :=
  { name := "Dr", phone := "", email := "", isInfluencer := some (PyVal.bool true) }

/-- Demo approved client in Baghdad, department d1, with one influencer
doctor. -/
def demoClient : ClientDoc :=
  { id := "c1", city := "Baghdad", department := "d1", state := "approved",
    priority := DVal.scalar PyVal.none,
    additionalInfo := some [demoDoctor] }

/-- Demo product whose single marketing task is a structured (dict) value. -/
def demoProductDictMT : ProductDoc :=
  { id := "pr1", departmentsIds := ["d1"],
    marketingTasks := [DVal.dict [("name", PyVal.str "MT")]] }

/-- Demo plan targeting d1/Baghdad with one target product and one previously
linked client id. -/
def demoPlan : PlanDoc :=
  { id := "p1", cities := ["Baghdad"], departmentsIds := ["d1"],
    clientsIds := ["cOld"],
    targetProductSales :=
      [DVal.dict [("productId", PyVal.str "pr1"), ("targetSales", PyVal.int 10)]],
    salesRepresentativeIds := ["r1"], salesManagerId := "m1" }

/-- Demo store for the full materialization scenarios. -/
def demoStore : Store :=
  { clients := [demoClient], products := [demoProductDictMT],
    plans := [demoPlan], tasks := [] }

/-- First full materialization run on the demo store (all store operations
succeed). -/
def demoRun1 : PlanTasksOut :=
  createPlanTasks (some demoPlan) demoStore true (fun _ => false)
    (fun _ _ => false)

/-- Second full materialization run, on the store produced by the first. -/
def demoRun2 : PlanTasksOut :=
  createPlanTasks (some demoPlan) demoRun1.store true (fun _ => false)
    (fun _ _ => false)

/-- Client whose stored city carries a trailing space (store drift). -/
def driftClient : ClientDoc :=
  { id := "c1", city := "Baghdad ", department := "d1", state := "approved",
    priority := DVal.scalar PyVal.none, additionalInfo := Option.none }

/-- Eleven requested cities (the many-cities strategy threshold is 10). -/
def elevenCities : List String :=
  ["Baghdad", "x1", "x2", "x3", "x4", "x5", "x6", "x7", "x8", "x9", "x10"]

/-- Demo store for the product-added scenario: one approved matching client,
a product with one scalar marketing task, a plan with no target products
yet. -/
def productScenarioStore : Store :=
  { clients := [demoClient]
    products :=
      [{ id := "pr1", departmentsIds := ["d1"],
         marketingTasks := [DVal.scalar (PyVal.str "A")] }]
    plans :=
      [{ id := "p1", cities := ["Baghdad"], departmentsIds := ["d1"],
         clientsIds := [], targetProductSales := [],
         salesRepresentativeIds := ["r1"], salesManagerId := "m1" }]
    tasks := [] }

/-- Product-added run on which the `targetProductSales` update fails. -/
def productRunTpsFail : ProductOut :=
  createTasksFromProduct "pr1" "p1" (some (PyVal.int 5)) productScenarioStore
    true false true

/-- Demo store whose product has two scalar marketing tasks (a run creating
two tasks). -/
def twoTaskStore : Store :=
  { clients := [demoClient]
    products :=
      [{ id := "pr1", departmentsIds := ["d1"],
         marketingTasks := [DVal.scalar (PyVal.str "A"),
                            DVal.scalar (PyVal.str "B")] }]
    plans := [demoPlan], tasks := [] }

/-- Full materialization run creating two tasks. -/
def twoTaskRun : PlanTasksOut :=
  createPlanTasks (some demoPlan) twoTaskStore true (fun _ => false)
    (fun _ _ => false)

/-- Client document with a doctor whose influencer flag is the truthy
non-boolean string value "yes". -/
def truthyFlagClient : ClientDoc :=
  { id := "c9", city := "Basra", department := "d2", state := "approved",
    priority := DVal.scalar PyVal.none,
    additionalInfo :=
      some [{ name := "DrX", phone := "", email := "",
              isInfluencer := some (PyVal.str "yes") }] }

/-- Extension relation between two synthesis states: the second extends the
first by a list of new tasks, with one singleton commit per new task, the
created counter advanced by their number, and every new task satisfying
`C`. -/
def SynthExt (C : TaskDoc → Prop) (st st2 : SynthSt) : Prop :=
  ∃ delta : List TaskDoc,
    st2.tasks = st.tasks ++ delta ∧
    st2.commits = st.commits ++ delta.map (fun t => [t]) ∧
    st2.created = st.created + delta.length ∧
    ∀ t ∈ delta, C t

/-- One plan extends another: same id and no client id removed. -/
def PlanSup (p q : PlanDoc) : Prop :=
  p.id = q.id ∧ ∀ x ∈ p.clientsIds, x ∈ q.clientsIds

/-- Pointwise plan extension of a plans collection. -/
def PlansSup (a b : List PlanDoc) : Prop := List.Forall₂ PlanSup a b

theorem contains_iff_mem (l : List String) (a : String) :
    l.contains a = true ↔ a ∈ l :=
  List.elem_iff

theorem chunkAux_flatten (n : Nat) (l : List α) :
    ∀ acc, (chunkAux n acc l).flatten = acc ++ l := by
  induction l with
  | nil =>
      intro acc
      by_cases h : acc.isEmpty
      · simp [chunkAux, h, List.isEmpty_iff.mp h]
      · simp [chunkAux, h]
  | cons x xs ih =>
      intro acc
      by_cases h : n ≤ acc.length + 1
      · simp [chunkAux, h, ih]
      · simp [chunkAux, h, ih]

theorem mem_chunksOf (n : Nat) (l : List α) (a : α) :
    (∃ ch ∈ chunksOf n l, a ∈ ch) ↔ a ∈ l := by
  rw [← List.mem_flatten, chunksOf, chunkAux_flatten]
  simp

theorem inFilter_eq (chunk : List String) (v : String) :
    inFilter chunk v = chunk.contains v := by
  match chunk with
  | [] => rfl
  | [x] =>
      simp only [inFilter, List.contains, List.elem]
      cases v == x <;> rfl
  | x :: y :: rest => rfl

theorem inFilter_iff_mem (chunk : List String) (v : String) :
    inFilter chunk v = true ↔ v ∈ chunk := by
  rw [inFilter_eq]
  exact contains_iff_mem chunk v

theorem foldl_guard_append_eq {p : β → Bool} {f : β → List α} (l : List β) :
    ∀ init : List α,
      l.foldl (fun acc x => if p x then acc else acc ++ f x) init =
        init ++ (l.map (fun x => if p x then [] else f x)).flatten := by
  induction l with
  | nil => intro init; simp
  | cons y ys ih =>
      intro init
      by_cases h : p y <;> simp [h, ih]

theorem foldl_append_eq {f : β → List α} (l : List β) :
    ∀ init : List α,
      l.foldl (fun acc x => acc ++ f x) init = init ++ (l.map f).flatten := by
  induction l with
  | nil => intro init; simp
  | cons y ys ih => intro init; simp [ih]

theorem mem_dedupById_sub (l : List ClientDoc) (a : ClientDoc) :
    ∀ seen, a ∈ dedupById l seen → a ∈ l := by
  induction l with
  | nil => intro seen h; simp [dedupById] at h
  | cons c rest ih =>
      intro seen h
      by_cases hs : seen.contains c.id
      · simp only [dedupById, hs, if_pos] at h
        exact List.mem_cons_of_mem _ (ih _ h)
      · simp only [dedupById, hs, if_neg, Bool.false_eq_true,
          not_false_eq_true, List.mem_cons] at h
        rcases h with h | h
        · exact h ▸ List.mem_cons_self _ _
        · exact List.mem_cons_of_mem _ (ih _ h)

theorem dedupById_id_mem (l : List ClientDoc) (i : String) :
    ∀ seen, (∃ c ∈ dedupById l seen, c.id = i) ↔
      ((∃ c ∈ l, c.id = i) ∧ i ∉ seen) := by
  induction l with
  | nil => intro seen; simp [dedupById]
  | cons c rest ih =>
      intro seen
      by_cases hs : seen.contains c.id
      · have hmem : c.id ∈ seen := (contains_iff_mem seen c.id).mp hs
        simp only [dedupById, hs, if_pos, ih, List.mem_cons]
        constructor
        · rintro ⟨⟨x, hx, hxi⟩, hnot⟩
          exact ⟨⟨x, Or.inr hx, hxi⟩, hnot⟩
        · rintro ⟨⟨x, hx, hxi⟩, hnot⟩
          rcases hx with rfl | hx
          · exact absurd (hxi ▸ hmem) hnot
          · exact ⟨⟨x, hx, hxi⟩, hnot⟩
      · have hmem : c.id ∉ seen := fun hm =>
          hs ((contains_iff_mem seen c.id).mpr hm)
        simp only [dedupById, hs, if_neg, Bool.false_eq_true, not_false_eq_true,
          List.mem_cons]
        constructor
        · rintro ⟨x, hx, hxi⟩
          rcases hx with rfl | hx
          · exact ⟨⟨x, Or.inl rfl, hxi⟩, hxi ▸ hmem⟩
          · have := (ih (c.id :: seen)).mp ⟨x, hx, hxi⟩
            rcases this with ⟨⟨y, hy, hyi⟩, hnot⟩
            simp only [List.mem_cons, not_or] at hnot
            exact ⟨⟨y, Or.inr hy, hyi⟩, hnot.2⟩
        · rintro ⟨⟨x, hx, hxi⟩, hnot⟩
          rcases hx with rfl | hx
          · exact ⟨x, Or.inl rfl, hxi⟩
          · by_cases hci : c.id = i
            · exact ⟨c, Or.inl rfl, hci⟩
            · have := (ih (c.id :: seen)).mpr
                ⟨⟨x, hx, hxi⟩, by
                  simp only [List.mem_cons, not_or]
                  exact ⟨fun h => hci h.symm, hnot⟩⟩
              rcases this with ⟨y, hy, hyi⟩
              exact ⟨y, Or.inr hy, hyi⟩

theorem strategyManyCities_eq (deps cities : List String)
    (clients : List ClientDoc) (fail : List String → Bool) :
    strategyManyCities deps cities clients fail =
      ((chunksOf 10 deps).map (fun dchunk =>
        if fail dchunk then []
        else (scanDeptState clients dchunk).filter
          (fun c =>
            (cities.map (fun x => pyStrip x)).contains (pyStrip c.city) &&
            (pyStrip c.state == "approved")))).flatten := by
  simp only [strategyManyCities]
  rw [foldl_guard_append_eq]
  simp

theorem strategyFewCities_eq (deps cities : List String)
    (clients : List ClientDoc) (fail : List String → List String → Bool) :
    strategyFewCities deps cities clients fail =
      ((chunksOf 10 deps).map (fun dchunk =>
        ((chunksOf 10 cities).map (fun cchunk =>
          if fail dchunk cchunk then []
          else scanDeptCityState clients dchunk cchunk)).flatten)).flatten := by
  simp only [strategyFewCities]
  have hstep : (fun (acc : List ClientDoc) dchunk =>
      (chunksOf 10 cities).foldl
        (fun acc2 cchunk =>
          if fail dchunk cchunk then acc2
          else acc2 ++ scanDeptCityState clients dchunk cchunk) acc) =
      (fun (acc : List ClientDoc) dchunk =>
        acc ++ ((chunksOf 10 cities).map (fun cchunk =>
          if fail dchunk cchunk then []
          else scanDeptCityState clients dchunk cchunk)).flatten) := by
    funext acc dchunk
    exact foldl_guard_append_eq _ _
  rw [hstep, foldl_append_eq]
  simp

theorem strategyManyCities_nofail_eq (deps cities : List String)
    (clients : List ClientDoc) :
    strategyManyCities deps cities clients (fun _ => false) =
      ((chunksOf 10 deps).map (fun dchunk =>
        (scanDeptState clients dchunk).filter
          (fun c =>
            (cities.map (fun x => pyStrip x)).contains (pyStrip c.city) &&
            (pyStrip c.state == "approved")))).flatten := by
  rw [strategyManyCities_eq]
  simp

theorem strategyFewCities_nofail_eq (deps cities : List String)
    (clients : List ClientDoc) :
    strategyFewCities deps cities clients (fun _ _ => false) =
      ((chunksOf 10 deps).map (fun dchunk =>
        ((chunksOf 10 cities).map (fun cchunk =>
          scanDeptCityState clients dchunk cchunk)).flatten)).flatten := by
  rw [strategyFewCities_eq]
  simp

theorem mem_strategyManyCities (deps cities : List String)
    (clients : List ClientDoc) (a : ClientDoc) :
    a ∈ strategyManyCities deps cities clients (fun _ => false) ↔
      (a ∈ clients ∧ a.department ∈ deps ∧ a.state = "approved" ∧
       pyStrip a.city ∈ cities.map (fun x => pyStrip x) ∧
       pyStrip a.state = "approved") := by
  rw [strategyManyCities_nofail_eq, List.mem_flatten]
  constructor
  · rintro ⟨l, hl, ha⟩
    rw [List.mem_map] at hl
    obtain ⟨ch, hch, rfl⟩ := hl
    rw [List.mem_filter] at ha
    obtain ⟨hscan, hmem2⟩ := ha
    rw [scanDeptState, List.mem_filter, Bool.and_eq_true, beq_iff_eq,
      inFilter_iff_mem] at hscan
    rw [Bool.and_eq_true, beq_iff_eq, contains_iff_mem] at hmem2
    exact ⟨hscan.1, (mem_chunksOf 10 deps a.department).mp ⟨ch, hch, hscan.2.1⟩,
      hscan.2.2, hmem2.1, hmem2.2⟩
  · rintro ⟨hcl, hdep, hst, hcity, hstrip⟩
    rcases (mem_chunksOf 10 deps a.department).mpr hdep with ⟨ch, hch, hmemd⟩
    refine ⟨_, List.mem_map_of_mem _ hch, ?_⟩
    rw [List.mem_filter]
    constructor
    · rw [scanDeptState, List.mem_filter, Bool.and_eq_true, beq_iff_eq,
        inFilter_iff_mem]
      exact ⟨hcl, hmemd, hst⟩
    · rw [Bool.and_eq_true, beq_iff_eq, contains_iff_mem]
      exact ⟨hcity, hstrip⟩

theorem mem_strategyFewCities (deps cities : List String)
    (clients : List ClientDoc) (a : ClientDoc) :
    a ∈ strategyFewCities deps cities clients (fun _ _ => false) ↔
      (a ∈ clients ∧ a.department ∈ deps ∧ a.city ∈ cities ∧
       a.state = "approved") := by
  rw [strategyFewCities_nofail_eq, List.mem_flatten]
  constructor
  · rintro ⟨l, hl, ha⟩
    rw [List.mem_map] at hl
    obtain ⟨ch, hch, rfl⟩ := hl
    rw [List.mem_flatten] at ha
    obtain ⟨l2, hl2, ha⟩ := ha
    rw [List.mem_map] at hl2
    obtain ⟨cch, hcch, rfl⟩ := hl2
    rw [scanDeptCityState, List.mem_filter, Bool.and_eq_true, Bool.and_eq_true,
      beq_iff_eq, inFilter_iff_mem, inFilter_iff_mem] at ha
    exact ⟨ha.1, (mem_chunksOf 10 deps a.department).mp ⟨ch, hch, ha.2.1.1⟩,
      (mem_chunksOf 10 cities a.city).mp ⟨cch, hcch, ha.2.1.2⟩, ha.2.2⟩
  · rintro ⟨hcl, hdep, hcity, hst⟩
    rcases (mem_chunksOf 10 deps a.department).mpr hdep with ⟨ch, hch, hmemd⟩
    rcases (mem_chunksOf 10 cities a.city).mpr hcity with ⟨cch, hcch, hmemc⟩
    refine ⟨_, List.mem_map_of_mem _ hch, ?_⟩
    rw [List.mem_flatten]
    refine ⟨_, List.mem_map_of_mem _ hcch, ?_⟩
    rw [scanDeptCityState, List.mem_filter, Bool.and_eq_true, Bool.and_eq_true,
      beq_iff_eq, inFilter_iff_mem, inFilter_iff_mem]
    exact ⟨hcl, ⟨hmemd, hmemc⟩, hst⟩

theorem strategyManyCities_approved (deps cities : List String)
    (clients : List ClientDoc) (fail : List String → Bool) (a : ClientDoc)
    (h : a ∈ strategyManyCities deps cities clients fail) :
    a ∈ clients ∧ a.state = "approved" := by
  rw [strategyManyCities_eq, List.mem_flatten] at h
  obtain ⟨l, hl, ha⟩ := h
  rw [List.mem_map] at hl
  obtain ⟨ch, hch, rfl⟩ := hl
  by_cases hf : fail ch
  · rw [if_pos hf] at ha
    simp at ha
  · rw [if_neg hf] at ha
    rw [List.mem_filter] at ha
    obtain ⟨hscan, hmem2⟩ := ha
    rw [scanDeptState, List.mem_filter, Bool.and_eq_true, beq_iff_eq] at hscan
    exact ⟨hscan.1, hscan.2.2⟩

theorem strategyFewCities_approved (deps cities : List String)
    (clients : List ClientDoc) (fail : List String → List String → Bool)
    (a : ClientDoc) (h : a ∈ strategyFewCities deps cities clients fail) :
    a ∈ clients ∧ a.state = "approved" := by
  rw [strategyFewCities_eq, List.mem_flatten] at h
  obtain ⟨l, hl, ha⟩ := h
  rw [List.mem_map] at hl
  obtain ⟨ch, hch, rfl⟩ := hl
  rw [List.mem_flatten] at ha
  obtain ⟨l2, hl2, ha⟩ := ha
  rw [List.mem_map] at hl2
  obtain ⟨cch, hcch, rfl⟩ := hl2
  by_cases hf : fail ch cch
  · rw [if_pos hf] at ha
    simp at ha
  · rw [if_neg hf] at ha
    rw [scanDeptCityState, List.mem_filter, Bool.and_eq_true, Bool.and_eq_true,
      beq_iff_eq] at ha
    exact ⟨ha.1, ha.2.2⟩

theorem productEligibleClients_approved (clients : List ClientDoc)
    (productDepartments planCities : List String) (a : ClientDoc)
    (h : a ∈ productEligibleClients clients productDepartments planCities) :
    a ∈ clients ∧ a.state = "approved" := by
  unfold productEligibleClients at h
  rw [foldl_append_eq, List.nil_append, List.mem_flatten] at h
  obtain ⟨l, hl, ha⟩ := h
  rw [List.mem_map] at hl
  obtain ⟨ch, hch, rfl⟩ := hl
  rw [List.mem_filter] at ha
  obtain ⟨ha1, ha2⟩ := ha
  rw [List.mem_filter, Bool.and_eq_true, beq_iff_eq] at ha1
  exact ⟨ha1.1, ha1.2.2⟩

theorem mergedEligible_approved (deps cities : List String)
    (clients : List ClientDoc) (failMany : List String → Bool)
    (failFew : List String → List String → Bool) (a : ClientDoc)
    (h : a ∈ mergedEligible deps cities clients failMany failFew) :
    a ∈ clients ∧ a.state = "approved" := by
  unfold mergedEligible at h
  have h2 := mem_dedupById_sub _ _ _ h
  by_cases hlen : cities.length > 10
  · rw [if_pos hlen] at h2
    exact strategyManyCities_approved _ _ _ _ _ h2
  · rw [if_neg hlen] at h2
    exact strategyFewCities_approved _ _ _ _ _ h2

theorem synthExt_refl (C : TaskDoc → Prop) (st : SynthSt) : SynthExt C st st :=
  ⟨[], by simp, by simp, by simp, by simp⟩

theorem synthExt_trans {C : TaskDoc → Prop} {a b c : SynthSt}
    (h1 : SynthExt C a b) (h2 : SynthExt C b c) : SynthExt C a c := by
  obtain ⟨d1, ht1, hc1, hn1, hC1⟩ := h1
  obtain ⟨d2, ht2, hc2, hn2, hC2⟩ := h2
  refine ⟨d1 ++ d2, ?_, ?_, ?_, ?_⟩
  · rw [ht2, ht1, List.append_assoc]
  · rw [hc2, hc1, List.map_append, List.append_assoc]
  · rw [hn2, hn1, List.length_append]
    omega
  · intro t ht
    rcases List.mem_append.mp ht with h | h
    · exact hC1 t h
    · exact hC2 t h

theorem synthExt_mono {C1 C2 : TaskDoc → Prop} (h : ∀ t, C1 t → C2 t)
    {a b : SynthSt} (he : SynthExt C1 a b) : SynthExt C2 a b := by
  obtain ⟨d, h1, h2, h3, h4⟩ := he
  exact ⟨d, h1, h2, h3, fun t ht => h t (h4 t ht)⟩

theorem createDoctorTask_some (planId : String) (meta : PlanMeta)
    (client : ClientDoc) (product : ProductDoc) (mt : DVal) (doctor : DoctorRec)
    (tasks : List TaskDoc) (t : TaskDoc)
    (h : createDoctorTask planId meta client product mt doctor tasks = some t) :
    t = buildTask planId meta client product mt doctor := by
  simp only [createDoctorTask] at h
  by_cases hq : tasks.any
      (taskMatchesQuery planId client.id product.id (mtNameVal mt) doctor.name) = true
  · rw [if_pos hq] at h
    cases h
  · rw [if_neg hq] at h
    injection h with h
    exact h.symm

theorem synthMarketingTasks_ext (C : TaskDoc → Prop) (planId : String)
    (meta : PlanMeta) (client : ClientDoc) (product : ProductDoc)
    (doctor : DoctorRec)
    (hC : ∀ mt, C (buildTask planId meta client product mt doctor)) :
    ∀ (mts : List DVal) (st : SynthSt),
      SynthExt C st (synthMarketingTasks planId meta client product doctor mts st) := by
  intro mts
  induction mts with
  | nil => intro st; exact synthExt_refl C st
  | cons mt rest ih =>
      intro st
      cases h : createDoctorTask planId meta client product mt doctor st.tasks with
      | none =>
          simp only [synthMarketingTasks, h]
          exact synthExt_trans
            (⟨[], by simp, by simp, by simp, by simp⟩ :
              SynthExt C st { st with skipped := st.skipped + 1 }) (ih _)
      | some t =>
          simp only [synthMarketingTasks, h]
          have ht := createDoctorTask_some planId meta client product mt doctor
            st.tasks t h
          refine synthExt_trans (b :=
            { created := st.created + 1, skipped := st.skipped,
              tasks := st.tasks ++ [t], commits := st.commits ++ [[t]] })
            ⟨[t], by simp, by simp, by simp, ?_⟩ (ih _)
          intro x hx
          rw [List.mem_singleton] at hx
          subst hx
          rw [ht]
          exact hC mt

theorem synthProducts_ext (C : TaskDoc → Prop) (planId : String)
    (meta : PlanMeta) (client : ClientDoc) (doctor : DoctorRec)
    (hC : ∀ product mt, C (buildTask planId meta client product mt doctor)) :
    ∀ (products : List ProductDoc) (st : SynthSt),
      SynthExt C st (synthProducts planId meta client doctor products st) := by
  intro products
  induction products with
  | nil => intro st; exact synthExt_refl C st
  | cons product rest ih =>
      intro st
      simp only [synthProducts]
      by_cases hm : product.marketingTasks.isEmpty
      · rw [if_pos hm]
        exact ih st
      · rw [if_neg hm]
        exact synthExt_trans
          (synthMarketingTasks_ext C planId meta client product doctor
            (hC product) _ _) (ih _)

theorem synthDoctors_ext (C : TaskDoc → Prop) (planId : String)
    (meta : PlanMeta) (client : ClientDoc) (products : List ProductDoc)
    (hC : ∀ product mt doctor, C (buildTask planId meta client product mt doctor)) :
    ∀ (doctors : List DoctorRec) (st : SynthSt),
      SynthExt C st (synthDoctors planId meta client products doctors st) := by
  intro doctors
  induction doctors with
  | nil => intro st; exact synthExt_refl C st
  | cons doctor rest ih =>
      intro st
      simp only [synthDoctors]
      exact synthExt_trans
        (synthProducts_ext C planId meta client doctor
          (fun product mt => hC product mt doctor) products st) (ih _)

theorem synthClients_ext (planId : String) (meta : PlanMeta)
    (products : List ProductDoc) :
    ∀ (cs : List ClientDoc) (acc : ClientLoopSt),
      SynthExt (fun t => ∃ c ∈ cs, t.clientId = c.id) acc.st
        (synthClients planId meta products cs acc).st := by
  intro cs
  induction cs with
  | nil => intro acc; exact synthExt_refl _ _
  | cons client rest ih =>
      intro acc
      simp only [synthClients]
      by_cases hd : (extractInfluencerDoctors client).isEmpty
      · rw [if_pos hd]
        exact synthExt_mono
          (fun t ht => by
            obtain ⟨c, hc, hid⟩ := ht
            exact ⟨c, List.mem_cons_of_mem _ hc, hid⟩)
          (ih _)
      · rw [if_neg hd]
        refine synthExt_trans (synthExt_mono ?_
          (synthDoctors_ext (fun t => t.clientId = client.id) planId meta client
            products (fun _ _ _ => rfl) (extractInfluencerDoctors client) acc.st))
          (synthExt_mono ?_ (ih _))
        · intro t ht
          exact ⟨client, List.mem_cons_self _ _, ht⟩
        · intro t ht
          obtain ⟨c, hc, hid⟩ := ht
          exact ⟨c, List.mem_cons_of_mem _ hc, hid⟩

theorem productClientsLoop_ext (planId : String) (meta : PlanMeta)
    (product : ProductDoc) :
    ∀ (cs : List ClientDoc) (acc : ProductClientsSt),
      SynthExt (fun t => ∃ c ∈ cs, t.clientId = c.id) acc.st
        (productClientsLoop planId meta product cs acc).st := by
  intro cs
  induction cs with
  | nil => intro acc; exact synthExt_refl _ _
  | cons client rest ih =>
      intro acc
      simp only [productClientsLoop]
      by_cases hid : client.id == ""
      · rw [if_pos hid]
        exact synthExt_mono
          (fun t ht => by
            obtain ⟨c, hc, h⟩ := ht
            exact ⟨c, List.mem_cons_of_mem _ hc, h⟩)
          (ih _)
      · rw [if_neg hid]
        by_cases hd : (extractInfluencerDoctors client).isEmpty
        · rw [if_pos hd]
          exact synthExt_mono
            (fun t ht => by
              obtain ⟨c, hc, h⟩ := ht
              exact ⟨c, List.mem_cons_of_mem _ hc, h⟩)
            (ih _)
        · rw [if_neg hd]
          refine synthExt_trans (synthExt_mono ?_
            (synthDoctors_ext (fun t => t.clientId = client.id) planId meta
              client [product] (fun _ _ _ => rfl)
              (extractInfluencerDoctors client) acc.st))
            (synthExt_mono ?_ (ih _))
          · intro t ht
            exact ⟨client, List.mem_cons_self _ _, ht⟩
          · intro t ht
            obtain ⟨c, hc, h⟩ := ht
            exact ⟨c, List.mem_cons_of_mem _ hc, h⟩

theorem newClientPlansLoop_ext (client : ClientDoc)
    (products : List ProductDoc) (doctors : List DoctorRec)
    (unionOk : String → Bool) :
    ∀ (ps : List PlanDoc) (acc : NewClientPlansSt),
      SynthExt (fun t => t.clientId = client.id) acc.st
        (newClientPlansLoop client products doctors unionOk ps acc).st := by
  intro ps
  induction ps with
  | nil => intro acc; exact synthExt_refl _ _
  | cons plan rest ih =>
      intro acc
      simp only [newClientPlansLoop]
      split
      · exact ih acc
      · split
        · exact ih acc
        · split
          · exact ih acc
          · split
            · exact ih acc
            · exact synthExt_trans
                (synthDoctors_ext (fun t => t.clientId = client.id) plan.id
                  (planMeta plan) client _ (fun _ _ _ => rfl) doctors acc.st)
                (ih _)

theorem flatten_singleton_map (l : List TaskDoc) :
    (l.map (fun t => [t])).flatten = l := by
  induction l with
  | nil => rfl
  | cons t rest ih => simp [ih]

theorem plansSup_refl (a : List PlanDoc) : PlansSup a a :=
  List.forall₂_same.mpr (fun _ _ => ⟨rfl, fun _ h => h⟩)

theorem plansSup_trans {a b c : List PlanDoc} (h1 : PlansSup a b)
    (h2 : PlansSup b c) : PlansSup a c := by
  induction h1 generalizing c with
  | nil =>
      cases h2
      exact List.Forall₂.nil
  | cons hpq hrest ih =>
      cases h2 with
      | cons hqr h2rest =>
          exact List.Forall₂.cons
            ⟨hpq.1.trans hqr.1, fun x hx => hqr.2 x (hpq.2 x hx)⟩ (ih h2rest)

theorem mem_arrayUnion_old (x : String) :
    ∀ (l old : List String), x ∈ old → x ∈ arrayUnion old l := by
  intro l
  induction l with
  | nil =>
      intro old h
      exact h
  | cons y ys ih =>
      intro old h
      simp only [arrayUnion]
      by_cases hc : old.contains y
      · rw [if_pos hc]
        exact ih old h
      · rw [if_neg hc]
        exact ih _ (List.mem_append_left _ h)

theorem plansSup_union (plans : List PlanDoc) (planId : String)
    (ids : List String) : PlansSup plans (unionPlanClientsIds plans planId ids) := by
  unfold unionPlanClientsIds PlansSup
  induction plans with
  | nil => exact List.Forall₂.nil
  | cons p rest ih =>
      simp only [List.map_cons]
      refine List.Forall₂.cons ?_ ih
      by_cases h : p.id == planId
      · rw [if_pos h]
        exact ⟨rfl, fun x hx => mem_arrayUnion_old x ids _ hx⟩
      · rw [if_neg h]
        exact ⟨rfl, fun x hx => hx⟩

theorem plansSup_setTps (plans : List PlanDoc) (planId : String)
    (items : List DVal) :
    PlansSup plans (setPlanTargetProductSales plans planId items) := by
  unfold setPlanTargetProductSales PlansSup
  induction plans with
  | nil => exact List.Forall₂.nil
  | cons p rest ih =>
      simp only [List.map_cons]
      refine List.Forall₂.cons ?_ ih
      by_cases h : p.id == planId
      · rw [if_pos h]
        exact ⟨rfl, fun x hx => hx⟩
      · rw [if_neg h]
        exact ⟨rfl, fun x hx => hx⟩

theorem newClientPlansLoop_plans (client : ClientDoc)
    (products : List ProductDoc) (doctors : List DoctorRec)
    (unionOk : String → Bool) :
    ∀ (ps : List PlanDoc) (acc : NewClientPlansSt),
      PlansSup acc.plans
        (newClientPlansLoop client products doctors unionOk ps acc).plans := by
  intro ps
  induction ps with
  | nil => intro acc; exact plansSup_refl _
  | cons plan rest ih =>
      intro acc
      simp only [newClientPlansLoop]
      split
      · exact ih acc
      · split
        · exact ih acc
        · split
          · exact ih acc
          · split
            · exact ih acc
            · refine plansSup_trans ?_ (ih _)
              by_cases hok : unionOk plan.id
              · rw [if_pos hok]
                exact plansSup_union _ _ _
              · rw [if_neg hok]
                exact plansSup_refl _

theorem fetchEligibleClients_ok (deps cities : List String)
    (clients : List ClientDoc) (failMany : List String → Bool)
    (failFew : List String → List String → Bool) (l : List ClientDoc)
    (h : fetchEligibleClients deps cities clients failMany failFew = Except.ok l) :
    ∀ c ∈ l, c ∈ clients ∧ c.state = "approved" := by
  simp only [fetchEligibleClients] at h
  split at h
  · cases h
  · split at h
    · cases h
    · split at h
      · cases h
      · split at h
        · cases h
        · injection h with h
          subst h
          intro c hc
          exact mergedEligible_approved deps cities clients failMany failFew c hc

theorem synthExt_from_init {C : TaskDoc → Prop} {tasks0 : List TaskDoc}
    {st2 : SynthSt}
    (h : SynthExt C { created := 0, skipped := 0, tasks := tasks0, commits := [] } st2) :
    st2.tasks = tasks0 ++ st2.commits.flatten ∧
    st2.created = st2.commits.length ∧
    (∀ e ∈ st2.commits, e.length = 1) ∧
    (∀ t ∈ st2.commits.flatten, C t) := by
  obtain ⟨delta, h1, h2, h3, h4⟩ := h
  simp only [List.nil_append, Nat.zero_add] at h1 h2 h3
  refine ⟨?_, ?_, ?_, ?_⟩
  · rw [h1, h2, flatten_singleton_map]
  · rw [h3, h2, List.length_map]
  · intro e he
    rw [h2] at he
    obtain ⟨t, _, rfl⟩ := List.mem_map.mp he
    rfl
  · intro t ht
    rw [h2, flatten_singleton_map] at ht
    exact h4 t ht

theorem createPlanTasks_spec (payload : Option PlanDoc) (s : Store)
    (planUpdateOk : Bool) (failMany : List String → Bool)
    (failFew : List String → List String → Bool) :
    (createPlanTasks payload s planUpdateOk failMany failFew).store.tasks =
        s.tasks ++
          (createPlanTasks payload s planUpdateOk failMany failFew).commits.flatten ∧
    (createPlanTasks payload s planUpdateOk failMany failFew).resp.tasksCreated =
        (createPlanTasks payload s planUpdateOk failMany failFew).commits.length ∧
    (∀ e ∈ (createPlanTasks payload s planUpdateOk failMany failFew).commits,
        e.length = 1) ∧
    (∀ t ∈ (createPlanTasks payload s planUpdateOk failMany failFew).commits.flatten,
        ∃ c ∈ s.clients, c.id = t.clientId ∧ c.state = "approved") := by
  cases payload with
  | none => simp [createPlanTasks, planTasksErr]
  | some plan =>
      simp only [createPlanTasks]
      split
      · simp [planTasksErr]
      · split
        · simp [planTasksErr]
        · split
          · simp [planTasksErr]
          · split
            · simp [planTasksErr]
            · split
              · simp [planTasksErr]
              · split
                · simp [planTasksErr]
                · split
                  · simp [planTasksErr]
                  · rename_i x1 products hproducts x2 clients hclients
                    have hext := synthClients_ext plan.id (planMeta plan)
                      products clients
                      { st := { created := 0, skipped := 0, tasks := s.tasks,
                                commits := [] },
                        clientsWithoutDoctors := 0, influencerCount := 0 }
                    have hfacts := synthExt_from_init hext
                    obtain ⟨hf1, hf2, hf3, hf4⟩ := hfacts
                    refine ⟨by simpa using hf1, by simpa using hf2,
                      by simpa using hf3, ?_⟩
                    intro t ht
                    simp only [] at ht
                    have := hf4 t (by simpa using ht)
                    obtain ⟨c, hc, hid⟩ := this
                    obtain ⟨hcs, hst⟩ :=
                      fetchEligibleClients_ok plan.departmentsIds plan.cities
                        s.clients failMany failFew clients hclients c hc
                    exact ⟨c, hcs, hid.symm, hst⟩

theorem productUpdatePhase_spec (productId planId : String) (sales : PyVal)
    (plan : PlanDoc) (s : Store) (loop : ProductClientsSt)
    (eligibleCount : Nat) (tpsOk cidsOk : Bool) :
    (productUpdatePhase productId planId sales plan s loop eligibleCount tpsOk cidsOk).store.tasks
        = loop.st.tasks ∧
    (productUpdatePhase productId planId sales plan s loop eligibleCount tpsOk cidsOk).commits
        = loop.st.commits ∧
    (productUpdatePhase productId planId sales plan s loop eligibleCount tpsOk cidsOk).resp.tasksCreated
        = loop.st.created ∧
    PlansSup s.plans
      (productUpdatePhase productId planId sales plan s loop eligibleCount tpsOk cidsOk).store.plans := by
  simp only [productUpdatePhase]
  split
  · exact ⟨rfl, rfl, rfl, plansSup_refl _⟩
  · split
    · exact ⟨rfl, rfl, rfl, plansSup_setTps _ _ _⟩
    · refine ⟨rfl, rfl, rfl, ?_⟩
      by_cases hc : cidsOk = true
      · simp only [hc, if_pos]
        exact plansSup_trans (plansSup_setTps _ _ _) (plansSup_union _ _ _)
      · simp only [hc, if_neg, Bool.false_eq_true, not_false_eq_true]
        exact plansSup_setTps _ _ _

theorem productEligiblePhase_spec (productId planId : String) (sales : PyVal)
    (plan : PlanDoc) (product : ProductDoc) (s : Store)
    (clientsQueryOk tpsOk cidsOk : Bool) :
    (productEligiblePhase productId planId sales plan product s clientsQueryOk tpsOk cidsOk).store.tasks
        = s.tasks ++
          (productEligiblePhase productId planId sales plan product s clientsQueryOk tpsOk cidsOk).commits.flatten ∧
    (productEligiblePhase productId planId sales plan product s clientsQueryOk tpsOk cidsOk).resp.tasksCreated
        = (productEligiblePhase productId planId sales plan product s clientsQueryOk tpsOk cidsOk).commits.length ∧
    (∀ e ∈ (productEligiblePhase productId planId sales plan product s clientsQueryOk tpsOk cidsOk).commits,
        e.length = 1) ∧
    (∀ t ∈ (productEligiblePhase productId planId sales plan product s clientsQueryOk tpsOk cidsOk).commits.flatten,
        ∃ c ∈ s.clients, c.id = t.clientId ∧ c.state = "approved") ∧
    PlansSup s.plans
      (productEligiblePhase productId planId sales plan product s clientsQueryOk tpsOk cidsOk).store.plans := by
  simp only [productEligiblePhase]
  split
  · exact ⟨by simp [productNoop], rfl, by simp [productNoop],
      by simp [productNoop], plansSup_refl _⟩
  · split
    · exact ⟨by simp [productNoop], rfl, by simp [productNoop],
        by simp [productNoop], plansSup_refl _⟩
    · split
      · exact ⟨by simp [productErr], rfl, by simp [productErr],
          by simp [productErr], plansSup_refl _⟩
      · split
        · exact ⟨by simp [productNoop], rfl, by simp [productNoop],
            by simp [productNoop], plansSup_refl _⟩
        · split
          · exact ⟨by simp [productNoop], rfl, by simp [productNoop],
              by simp [productNoop], plansSup_refl _⟩
          · have hext := productClientsLoop_ext planId (planMeta plan) product
              (productEligibleClients s.clients product.departmentsIds plan.cities)
              { st := { created := 0, skipped := 0, tasks := s.tasks,
                        commits := [] },
                newClientIds := [], processed := 0 }
            obtain ⟨hf1, hf2, hf3, hf4⟩ := synthExt_from_init hext
            obtain ⟨hp1, hp2, hp3, hp4⟩ :=
              productUpdatePhase_spec productId planId sales plan s
                (productClientsLoop planId (planMeta plan) product
                  (productEligibleClients s.clients product.departmentsIds
                    plan.cities)
                  { st := { created := 0, skipped := 0, tasks := s.tasks,
                            commits := [] },
                    newClientIds := [], processed := 0 })
                (productEligibleClients s.clients product.departmentsIds
                  plan.cities).length tpsOk cidsOk
            refine ⟨?_, ?_, ?_, ?_, hp4⟩
            · rw [hp1, hp2]
              exact hf1
            · rw [hp2, hp3]
              exact hf2
            · rw [hp2]
              exact hf3
            · rw [hp2]
              intro t ht
              obtain ⟨c, hc, hid⟩ := hf4 t ht
              obtain ⟨hcs, hstate⟩ := productEligibleClients_approved _ _ _ _ hc
              exact ⟨c, hcs, hid.symm, hstate⟩

theorem createTasksFromProduct_spec (productId planId : String)
    (targetSales : Option PyVal) (s : Store)
    (clientsQueryOk tpsOk cidsOk : Bool) :
    (createTasksFromProduct productId planId targetSales s clientsQueryOk tpsOk cidsOk).store.tasks
        = s.tasks ++
          (createTasksFromProduct productId planId targetSales s clientsQueryOk tpsOk cidsOk).commits.flatten ∧
    (createTasksFromProduct productId planId targetSales s clientsQueryOk tpsOk cidsOk).resp.tasksCreated
        = (createTasksFromProduct productId planId targetSales s clientsQueryOk tpsOk cidsOk).commits.length ∧
    (∀ e ∈ (createTasksFromProduct productId planId targetSales s clientsQueryOk tpsOk cidsOk).commits,
        e.length = 1) ∧
    (∀ t ∈ (createTasksFromProduct productId planId targetSales s clientsQueryOk tpsOk cidsOk).commits.flatten,
        ∃ c ∈ s.clients, c.id = t.clientId ∧ c.state = "approved") ∧
    PlansSup s.plans
      (createTasksFromProduct productId planId targetSales s clientsQueryOk tpsOk cidsOk).store.plans := by
  simp only [createTasksFromProduct]
  split
  · exact ⟨by simp [productErr], rfl, by simp [productErr],
      by simp [productErr], plansSup_refl _⟩
  · split
    · exact ⟨by simp [productErr], rfl, by simp [productErr],
        by simp [productErr], plansSup_refl _⟩
    · split
      · exact ⟨by simp [productErr], rfl, by simp [productErr],
          by simp [productErr], plansSup_refl _⟩
      · split
        · exact ⟨by simp [productErr], rfl, by simp [productErr],
            by simp [productErr], plansSup_refl _⟩
        · split
          · exact ⟨by simp [productErr], rfl, by simp [productErr],
              by simp [productErr], plansSup_refl _⟩
          · split
            · exact ⟨by simp [productErr], rfl, by simp [productErr],
                by simp [productErr], plansSup_refl _⟩
            · exact productEligiblePhase_spec _ _ _ _ _ _ _ _ _

theorem createTasksForNewClient_spec (payload : Option ClientDoc) (s : Store)
    (plansQueryOk : Bool) (unionOk : String → Bool) :
    (createTasksForNewClient payload s plansQueryOk unionOk).store.tasks
        = s.tasks ++
          (createTasksForNewClient payload s plansQueryOk unionOk).commits.flatten ∧
    (createTasksForNewClient payload s plansQueryOk unionOk).resp.tasksCreated
        = (createTasksForNewClient payload s plansQueryOk unionOk).commits.length ∧
    (∀ e ∈ (createTasksForNewClient payload s plansQueryOk unionOk).commits,
        e.length = 1) ∧
    PlansSup s.plans
      (createTasksForNewClient payload s plansQueryOk unionOk).store.plans := by
  cases payload with
  | none =>
      exact ⟨by simp [createTasksForNewClient, newClientErr], rfl,
        by simp [createTasksForNewClient, newClientErr],
        plansSup_refl _⟩
  | some client =>
      simp only [createTasksForNewClient]
      split
      · exact ⟨by simp [newClientErr], rfl, by simp [newClientErr],
          plansSup_refl _⟩
      · split
        · exact ⟨by simp [newClientErr], rfl, by simp [newClientErr],
            plansSup_refl _⟩
        · split
          · exact ⟨by simp [newClientErr], rfl, by simp [newClientErr],
              plansSup_refl _⟩
          · split
            · exact ⟨by simp [newClientNoop], rfl, by simp [newClientNoop],
                plansSup_refl _⟩
            · split
              · exact ⟨by simp [newClientErr], rfl, by simp [newClientErr],
                  plansSup_refl _⟩
              · split
                · exact ⟨by simp [newClientNoop], rfl, by simp [newClientNoop],
                    plansSup_refl _⟩
                · split
                  · exact ⟨by simp [newClientNoop], rfl,
                      by simp [newClientNoop], plansSup_refl _⟩
                  · have hext := newClientPlansLoop_ext client s.products
                      (extractInfluencerDoctors client) unionOk
                      (s.plans.filter (fun p =>
                        p.cities.contains client.city &&
                        p.departmentsIds.contains client.department &&
                        !(p.clientsIds.contains client.id)))
                      { st := { created := 0, skipped := 0, tasks := s.tasks,
                                commits := [] },
                        plans := s.plans, taskErrors := [], planUpdates := [],
                        plansProcessed := 0 }
                    obtain ⟨hf1, hf2, hf3, _⟩ := synthExt_from_init hext
                    have hplans := newClientPlansLoop_plans client s.products
                      (extractInfluencerDoctors client) unionOk
                      (s.plans.filter (fun p =>
                        p.cities.contains client.city &&
                        p.departmentsIds.contains client.department &&
                        !(p.clientsIds.contains client.id)))
                      { st := { created := 0, skipped := 0, tasks := s.tasks,
                                commits := [] },
                        plans := s.plans, taskErrors := [], planUpdates := [],
                        plansProcessed := 0 }
                    exact ⟨hf1, hf2, hf3, hplans⟩

theorem pyStrip_approved : pyStrip "approved" = "approved" := by decide

theorem newClient_not_approved (client : ClientDoc) (s : Store)
    (plansQueryOk : Bool) (unionOk : String → Bool)
    (h : client.state ≠ "approved") :
    (createTasksForNewClient (some client) s plansQueryOk unionOk).commits = [] ∧
    (createTasksForNewClient (some client) s plansQueryOk unionOk).store = s ∧
    (createTasksForNewClient (some client) s plansQueryOk unionOk).resp.tasksCreated = 0 ∧
    (client.id ≠ "" → client.city ≠ "" → client.department ≠ "" →
      (createTasksForNewClient (some client) s plansQueryOk unionOk).resp.success = true ∧
      (createTasksForNewClient (some client) s plansQueryOk unionOk).resp.status = 200) := by
  simp only [createTasksForNewClient]
  split
  · rename_i hid
    refine ⟨rfl, rfl, rfl, fun hid2 _ _ => ?_⟩
    exact absurd (by simpa using hid) hid2
  · split
    · rename_i hcity
      refine ⟨rfl, rfl, rfl, fun _ hcity2 _ => ?_⟩
      exact absurd (by simpa using hcity) hcity2
    · split
      · rename_i hdep
        refine ⟨rfl, rfl, rfl, fun _ _ hdep2 => ?_⟩
        exact absurd (by simpa using hdep) hdep2
      · split
        · exact ⟨rfl, rfl, rfl, fun _ _ _ => ⟨rfl, rfl⟩⟩
        · rename_i hst
          exact absurd (by simpa using hst) h

theorem createTasksFromProduct_cases (productId planId : String)
    (targetSales : Option PyVal) (s : Store)
    (clientsQueryOk tpsOk cidsOk : Bool) :
    (createTasksFromProduct productId planId targetSales s clientsQueryOk tpsOk cidsOk).planUpdates = [] ∨
    ∃ sales plan loop eligibleCount,
      targetSales = some sales ∧
      createTasksFromProduct productId planId targetSales s clientsQueryOk tpsOk cidsOk =
        productUpdatePhase productId planId sales plan s loop eligibleCount
          tpsOk cidsOk ∧
      loop.st.tasks = s.tasks ++ loop.st.commits.flatten ∧
      loop.st.created = loop.st.commits.length := by
  simp only [createTasksFromProduct]
  split
  · exact Or.inl rfl
  · split
    · exact Or.inl rfl
    · split
      · exact Or.inl rfl
      · split
        · exact Or.inl rfl
        · split
          · exact Or.inl rfl
          · split
            · exact Or.inl rfl
            · rename_i sales xplan plan hplan hdup xprod product hprod
              simp only [productEligiblePhase]
              split
              · exact Or.inl rfl
              · split
                · exact Or.inl rfl
                · split
                  · exact Or.inl rfl
                  · split
                    · exact Or.inl rfl
                    · split
                      · exact Or.inl rfl
                      · refine Or.inr ⟨sales, plan,
                          productClientsLoop planId (planMeta plan) product
                            (productEligibleClients s.clients
                              product.departmentsIds plan.cities)
                            { st := { created := 0, skipped := 0,
                                      tasks := s.tasks, commits := [] },
                              newClientIds := [], processed := 0 },
                          (productEligibleClients s.clients
                            product.departmentsIds plan.cities).length,
                          rfl, rfl, ?_, ?_⟩
                        · obtain ⟨hf1, _, _, _⟩ := synthExt_from_init
                            (productClientsLoop_ext planId (planMeta plan)
                              product
                              (productEligibleClients s.clients
                                product.departmentsIds plan.cities)
                              { st := { created := 0, skipped := 0,
                                        tasks := s.tasks, commits := [] },
                                newClientIds := [], processed := 0 })
                          exact hf1
                        · obtain ⟨_, hf2, _, _⟩ := synthExt_from_init
                            (productClientsLoop_ext planId (planMeta plan)
                              product
                              (productEligibleClients s.clients
                                product.departmentsIds plan.cities)
                              { st := { created := 0, skipped := 0,
                                        tasks := s.tasks, commits := [] },
                                newClientIds := [], processed := 0 })
                          exact hf2

/-- C1: the claimed identity-tuple uniqueness invariant fails on the code.
With a structured (dict) marketing task, `_create_doctor_task` queries the
stored `marketingTask` field against the derived name string, but the task it
writes stores the full dict, so the lookup never matches and a second
materialization run writes a second task with the same identity tuple
(planId, clientId, productId, marketingTaskName, doctorName).  This theorem
evaluates the engine at that failing input: after two runs the tasks
collection holds two records with the identical identity tuple. -/
theorem claim_c1_duplicate_tuple :
    demoRun2.store.tasks.map identityTuple =
      [("p1", "c1", "pr1", PyVal.str "MT", "Dr"),
       ("p1", "c1", "pr1", PyVal.str "MT", "Dr")] ∧
    demoRun2.store.tasks.length = 2 := by decide

/-- C2: full materialization is not idempotent on the code.  On the demo
store whose product has a dict marketing task, the first run reports one
created task and the second run, on the resulting store, again reports
`tasksCreated = 1` and `tasksSkipped = 0` instead of the claimed
`tasksCreated = 0`, `tasksSkipped = 1`. -/
theorem claim_c2_rerun_not_idempotent :
    demoRun1.resp.tasksCreated = 1 ∧ demoRun1.resp.tasksSkipped = 0 ∧
    demoRun2.resp.tasksCreated = 1 ∧ demoRun2.resp.tasksSkipped = 0 := by decide

/-- C3 (counterexample): the two eligibility strategies do not return the
same final client set.  For a stored city with a trailing space
("Baghdad ") and eleven requested cities containing "Baghdad", the
many-cities strategy (trimmed in-memory comparison) returns the client while
the few-cities strategy (raw store equality filters) returns nothing. -/
theorem claim_c3_counterexample :
    dedupById (strategyManyCities ["d1"] elevenCities [driftClient]
      (fun _ => false)) [] = [driftClient] ∧
    dedupById (strategyFewCities ["d1"] elevenCities [driftClient]
      (fun _ _ => false)) [] = [] := by decide

/-- C3 (amended): the two strategies agree exactly on whitespace-clean data:
when every stored client city and every requested city equals its stripped
form, the id sets produced by the two strategies (after id dedup) coincide. -/
theorem claim_c3_amended (deps cities : List String) (clients : List ClientDoc)
    (hstore : ∀ c ∈ clients, pyStrip c.city = c.city)
    (hreq : ∀ x ∈ cities, pyStrip x = x) (i : String) :
    ((∃ c ∈ dedupById (strategyManyCities deps cities clients (fun _ => false)) [],
        c.id = i) ↔
     (∃ c ∈ dedupById (strategyFewCities deps cities clients (fun _ _ => false)) [],
        c.id = i)) := by
  rw [dedupById_id_mem, dedupById_id_mem]
  simp only [List.not_mem_nil, not_false_eq_true, and_true]
  constructor
  · rintro ⟨c, hc, hci⟩
    rw [mem_strategyManyCities] at hc
    obtain ⟨hcl, hdep, hst, hcity, _⟩ := hc
    refine ⟨c, ?_, hci⟩
    rw [mem_strategyFewCities]
    refine ⟨hcl, hdep, ?_, hst⟩
    rw [hstore c hcl] at hcity
    obtain ⟨y, hy, hyc⟩ := List.mem_map.mp hcity
    rw [hreq y hy] at hyc
    rwa [← hyc]
  · rintro ⟨c, hc, hci⟩
    rw [mem_strategyFewCities] at hc
    obtain ⟨hcl, hdep, hcity, hst⟩ := hc
    refine ⟨c, ?_, hci⟩
    rw [mem_strategyManyCities]
    refine ⟨hcl, hdep, hst, ?_, ?_⟩
    · rw [hstore c hcl]
      exact List.mem_map.mpr ⟨c.city, hcity, hstore c hcl⟩
    · rw [hst, pyStrip_approved]

/-- C3 (witness): the amended equivalence instantiated on a concrete
whitespace-clean store. -/
theorem claim_c3_witness :
    ((∃ c ∈ dedupById (strategyManyCities ["d1"] ["Baghdad"] [demoClient]
        (fun _ => false)) [], c.id = "c1") ↔
     (∃ c ∈ dedupById (strategyFewCities ["d1"] ["Baghdad"] [demoClient]
        (fun _ _ => false)) [], c.id = "c1")) :=
  claim_c3_amended ["d1"] ["Baghdad"] [demoClient] (by decide) (by decide) "c1"

/-- C4 (counterexample): `Plan.clientsIds` is not append/union-only.  On the
demo store the plan starts with `clientsIds = ["cOld"]`; a successful full
materialization overwrites the field with the freshly resolved client set
`["c1"]`, removing the previously linked id. -/
theorem claim_c4_counterexample :
    demoStore.plans.map (fun p => p.clientsIds) = [["cOld"]] ∧
    demoRun1.resp.success = true ∧
    demoRun1.store.plans.map (fun p => p.clientsIds) = [["c1"]] := by decide

/-- C4 (amended): the client-added and product-added triggers mutate
`clientsIds` only through set-union updates, so after either operation every
plan keeps its id and loses no client id; full materialization instead
overwrites `clientsIds` with the resolved eligible set and can remove
previously linked ids (see the counterexample). -/
theorem claim_c4_amended :
    (∀ (payload : Option ClientDoc) (s : Store) (plansQueryOk : Bool)
        (unionOk : String → Bool),
      PlansSup s.plans
        (createTasksForNewClient payload s plansQueryOk unionOk).store.plans) ∧
    (∀ (productId planId : String) (targetSales : Option PyVal) (s : Store)
        (clientsQueryOk tpsOk cidsOk : Bool),
      PlansSup s.plans
        (createTasksFromProduct productId planId targetSales s clientsQueryOk
          tpsOk cidsOk).store.plans) :=
  ⟨fun payload s q u => (createTasksForNewClient_spec payload s q u).2.2.2,
   fun pid plid ts s c t u2 =>
     (createTasksFromProduct_spec pid plid ts s c t u2).2.2.2.2⟩

/-- C4 (witness): the union-only preservation instantiated on a concrete
client-added run. -/
theorem claim_c4_witness :
    PlansSup demoStore.plans
      (createTasksForNewClient (some demoClient) demoStore true
        (fun _ => true)).store.plans :=
  claim_c4_amended.1 (some demoClient) demoStore true (fun _ => true)

/-- C5 (counterexample): the two plan updates of the product-added trigger
are not both attempted when the first fails.  On the demo store, with the
`targetProductSales` update failing, the run issues exactly one plan update
call (the failed `targetProductSales` overwrite), never attempts the
`clientsIds` union (although client c1 would have been added), returns a 500
error, and keeps the one task it created. -/
theorem claim_c5_counterexample :
    productRunTpsFail.planUpdates =
      [PlanUpdateEvent.setTargetProductSales "p1"
        [DVal.dict [("productId", PyVal.str "pr1"),
                    ("targetSales", PyVal.int 5)]] false] ∧
    productRunTpsFail.resp.status = 500 ∧
    productRunTpsFail.resp.tasksCreated = 1 ∧
    productRunTpsFail.store.tasks.length = 1 := by decide

/-- C5 (amended): in the product-added trigger the `targetProductSales`
append is attempted first; when it fails the run returns a 500 error that
still reports the created task count and keeps the created tasks, and the
`clientsIds` union is never attempted.  When it succeeds, the `clientsIds`
union is attempted exactly when there are new client ids, and its failure is
recorded in the taskErrors of a still-successful response without discarding
the created tasks. -/
theorem claim_c5_amended (productId planId : String)
    (targetSales : Option PyVal) (s : Store)
    (clientsQueryOk tpsOk cidsOk : Bool) :
    (tpsOk = false →
      ((createTasksFromProduct productId planId targetSales s clientsQueryOk tpsOk cidsOk).planUpdates = [] ∨
       ∃ items,
         (createTasksFromProduct productId planId targetSales s clientsQueryOk tpsOk cidsOk).planUpdates =
           [PlanUpdateEvent.setTargetProductSales planId items false] ∧
         (createTasksFromProduct productId planId targetSales s clientsQueryOk tpsOk cidsOk).resp.status = 500 ∧
         (createTasksFromProduct productId planId targetSales s clientsQueryOk tpsOk cidsOk).resp.success = false ∧
         (createTasksFromProduct productId planId targetSales s clientsQueryOk tpsOk cidsOk).store.tasks =
           s.tasks ++ (createTasksFromProduct productId planId targetSales s clientsQueryOk tpsOk cidsOk).commits.flatten ∧
         (createTasksFromProduct productId planId targetSales s clientsQueryOk tpsOk cidsOk).resp.tasksCreated =
           (createTasksFromProduct productId planId targetSales s clientsQueryOk tpsOk cidsOk).commits.length)) ∧
    (tpsOk = true →
      ((createTasksFromProduct productId planId targetSales s clientsQueryOk tpsOk cidsOk).planUpdates = [] ∨
       (∃ items,
         (createTasksFromProduct productId planId targetSales s clientsQueryOk tpsOk cidsOk).planUpdates =
           [PlanUpdateEvent.setTargetProductSales planId items true] ∧
         (createTasksFromProduct productId planId targetSales s clientsQueryOk tpsOk cidsOk).resp.success = true ∧
         (createTasksFromProduct productId planId targetSales s clientsQueryOk tpsOk cidsOk).resp.taskErrors = []) ∨
       (∃ items ids,
         (createTasksFromProduct productId planId targetSales s clientsQueryOk tpsOk cidsOk).planUpdates =
           [PlanUpdateEvent.setTargetProductSales planId items true,
            PlanUpdateEvent.unionClientsIds planId ids cidsOk] ∧
         (createTasksFromProduct productId planId targetSales s clientsQueryOk tpsOk cidsOk).resp.success = true ∧
         (cidsOk = false →
           (createTasksFromProduct productId planId targetSales s clientsQueryOk tpsOk cidsOk).resp.taskErrors =
             ["Failed to update plan clientsIds"]) ∧
         (createTasksFromProduct productId planId targetSales s clientsQueryOk tpsOk cidsOk).store.tasks =
           s.tasks ++ (createTasksFromProduct productId planId targetSales s clientsQueryOk tpsOk cidsOk).commits.flatten))) := by
  rcases createTasksFromProduct_cases productId planId targetSales s
    clientsQueryOk tpsOk cidsOk with hnil | ⟨sales, plan, loop, cnt, hts, heq, hl1, hl2⟩
  · exact ⟨fun _ => Or.inl hnil, fun _ => Or.inl hnil⟩
  · constructor
    · intro htp
      subst htp
      rw [heq]
      refine Or.inr ⟨plan.targetProductSales ++
        [DVal.dict [("productId", PyVal.str productId),
                    ("targetSales", sales)]], ?_⟩
      simp only [productUpdatePhase, Bool.not_false, if_pos]
      exact ⟨rfl, rfl, rfl, hl1, hl2⟩
    · intro htp
      subst htp
      rw [heq]
      simp only [productUpdatePhase, Bool.not_true, Bool.false_eq_true,
        if_neg, not_false_eq_true]
      split
      · refine Or.inr (Or.inl ⟨plan.targetProductSales ++
          [DVal.dict [("productId", PyVal.str productId),
                      ("targetSales", sales)]], rfl, rfl, rfl⟩)
      · refine Or.inr (Or.inr ⟨plan.targetProductSales ++
          [DVal.dict [("productId", PyVal.str productId),
                      ("targetSales", sales)]],
          loop.newClientIds.filter (fun i => !(plan.clientsIds.contains i)),
          rfl, rfl, ?_, hl1⟩)
        intro hc
        simp [hc]

/-- C6 (counterexample): task persistence is not handed to a chunking batch
coordinator; it is exactly one single-document write per created task.  A run
creating two tasks produces two singleton commits instead of one atomic
commit holding both writes (2 being far below the claimed 500 bound), and no
retry path exists. -/
theorem claim_c6_counterexample :
    twoTaskRun.resp.tasksCreated = 2 ∧
    twoTaskRun.commits.map List.length = [1, 1] := by decide

/-- C6 (amended): in each of the three triggers every created task is
persisted immediately by its own single-document write: the commit trace
holds exactly one singleton commit per created task, the reported
`tasksCreated` equals the number of commits, and the final tasks collection
is the original plus the committed writes.  No grouping into chunks of 500
and no chunk retry exist. -/
theorem claim_c6_amended :
    (∀ (payload : Option PlanDoc) (s : Store) (planUpdateOk : Bool)
        (failMany : List String → Bool)
        (failFew : List String → List String → Bool),
      (createPlanTasks payload s planUpdateOk failMany failFew).store.tasks =
          s.tasks ++
            (createPlanTasks payload s planUpdateOk failMany failFew).commits.flatten ∧
      (createPlanTasks payload s planUpdateOk failMany failFew).resp.tasksCreated =
          (createPlanTasks payload s planUpdateOk failMany failFew).commits.length ∧
      ∀ e ∈ (createPlanTasks payload s planUpdateOk failMany failFew).commits,
        e.length = 1) ∧
    (∀ (payload : Option ClientDoc) (s : Store) (plansQueryOk : Bool)
        (unionOk : String → Bool),
      (createTasksForNewClient payload s plansQueryOk unionOk).store.tasks =
          s.tasks ++
            (createTasksForNewClient payload s plansQueryOk unionOk).commits.flatten ∧
      (createTasksForNewClient payload s plansQueryOk unionOk).resp.tasksCreated =
          (createTasksForNewClient payload s plansQueryOk unionOk).commits.length ∧
      ∀ e ∈ (createTasksForNewClient payload s plansQueryOk unionOk).commits,
        e.length = 1) ∧
    (∀ (productId planId : String) (targetSales : Option PyVal) (s : Store)
        (clientsQueryOk tpsOk cidsOk : Bool),
      (createTasksFromProduct productId planId targetSales s clientsQueryOk tpsOk cidsOk).store.tasks =
          s.tasks ++
            (createTasksFromProduct productId planId targetSales s clientsQueryOk tpsOk cidsOk).commits.flatten ∧
      (createTasksFromProduct productId planId targetSales s clientsQueryOk tpsOk cidsOk).resp.tasksCreated =
          (createTasksFromProduct productId planId targetSales s clientsQueryOk tpsOk cidsOk).commits.length ∧
      ∀ e ∈ (createTasksFromProduct productId planId targetSales s clientsQueryOk tpsOk cidsOk).commits,
        e.length = 1) := by
  refine ⟨fun payload s p fM fF => ?_, fun payload s q u => ?_,
    fun pid plid ts s c t u2 => ?_⟩
  · obtain ⟨h1, h2, h3, _⟩ := createPlanTasks_spec payload s p fM fF
    exact ⟨h1, h2, h3⟩
  · obtain ⟨h1, h2, h3, _⟩ := createTasksForNewClient_spec payload s q u
    exact ⟨h1, h2, h3⟩
  · obtain ⟨h1, h2, h3, _, _⟩ := createTasksFromProduct_spec pid plid ts s c t u2
    exact ⟨h1, h2, h3⟩

/-- C6 (witness): the per-task singleton-commit shape instantiated on the
two-task demo run. -/
theorem claim_c6_witness :
    twoTaskRun.store.tasks = twoTaskStore.tasks ++ twoTaskRun.commits.flatten ∧
    twoTaskRun.resp.tasksCreated = twoTaskRun.commits.length ∧
    (twoTaskRun.commits.getD 0 []).length = 1 :=
  ⟨(claim_c6_amended.1 (some demoPlan) twoTaskStore true (fun _ => false)
      (fun _ _ => false)).1,
   (claim_c6_amended.1 (some demoPlan) twoTaskStore true (fun _ => false)
      (fun _ _ => false)).2.1,
   (claim_c6_amended.1 (some demoPlan) twoTaskStore true (fun _ => false)
      (fun _ _ => false)).2.2 (twoTaskRun.commits.getD 0 []) (by decide)⟩

/-- C7 (counterexample): the eligibility resolver raises on an empty merged
set even when every chunk scan succeeded (both failure oracles are constantly
false here), contradicting the claim that it raises only when at least one
chunk failed. -/
theorem claim_c7_counterexample :
    fetchEligibleClients ["d1"] ["Mosul"] [demoClient] (fun _ => false)
      (fun _ _ => false) =
      Except.error "No clients found matching the criteria" := by rfl

/-- C7 (amended): for non-empty inputs against a non-empty clients
collection, the resolver raises exactly when the merged deduplicated set is
empty, regardless of whether any chunk scan failed, and returns the merged
set whenever it is non-empty, regardless of chunk failures. -/
theorem claim_c7_amended (deps cities : List String) (clients : List ClientDoc)
    (failMany : List String → Bool) (failFew : List String → List String → Bool)
    (h1 : deps ≠ []) (h2 : cities ≠ []) (h3 : clients ≠ []) :
    (mergedEligible deps cities clients failMany failFew = [] →
      fetchEligibleClients deps cities clients failMany failFew =
        Except.error "No clients found matching the criteria") ∧
    (mergedEligible deps cities clients failMany failFew ≠ [] →
      fetchEligibleClients deps cities clients failMany failFew =
        Except.ok (mergedEligible deps cities clients failMany failFew)) := by
  have e1 : ¬ deps.isEmpty = true := by simpa [List.isEmpty_iff] using h1
  have e2 : ¬ cities.isEmpty = true := by simpa [List.isEmpty_iff] using h2
  have e3 : ¬ clients.isEmpty = true := by simpa [List.isEmpty_iff] using h3
  constructor
  · intro hm
    simp [fetchEligibleClients, e1, e2, e3, hm]
  · intro hm
    have e4 : ¬ (mergedEligible deps cities clients failMany failFew).isEmpty = true := by
      simpa [List.isEmpty_iff] using hm
    simp [fetchEligibleClients, e1, e2, e3, e4]

/-- C7 (witness): the amended raise/return dichotomy instantiated on a
concrete store. -/
theorem claim_c7_witness :
    (mergedEligible ["d1"] ["Baghdad"] [demoClient] (fun _ => false)
        (fun _ _ => false) = [] →
      fetchEligibleClients ["d1"] ["Baghdad"] [demoClient] (fun _ => false)
        (fun _ _ => false) =
        Except.error "No clients found matching the criteria") ∧
    (mergedEligible ["d1"] ["Baghdad"] [demoClient] (fun _ => false)
        (fun _ _ => false) ≠ [] →
      fetchEligibleClients ["d1"] ["Baghdad"] [demoClient] (fun _ => false)
        (fun _ _ => false) =
        Except.ok (mergedEligible ["d1"] ["Baghdad"] [demoClient]
          (fun _ => false) (fun _ _ => false))) :=
  claim_c7_amended ["d1"] ["Baghdad"] [demoClient] (fun _ => false)
    (fun _ _ => false) (by decide) (by decide) (by decide)

/-- C8 (counterexample): the influencer filter is Python truthiness, not
equality with `true`.  A doctor whose `isInfluencer` is the string "yes"
(truthy but not the boolean true) is included in the extraction. -/
theorem claim_c8_counterexample :
    extractInfluencerDoctors truthyFlagClient =
      [{ name := "DrX", phone := "", email := "" }] ∧
    (truthyFlagClient.additionalInfo.getD []).map (fun d => d.isInfluencer) =
      [some (PyVal.str "yes")] ∧
    PyVal.str "yes" ≠ PyVal.bool true := by decide

/-- C8 (amended): `_extract_influencer_doctors` returns the empty list when
`additionalInfo` (and hence its doctors list) is absent, and otherwise
returns exactly the doctors whose `isInfluencer` value is truthy (missing
and falsy flags excluded, any truthy value included), projected to
name/phone/email. -/
theorem claim_c8_amended :
    (∀ client : ClientDoc, client.additionalInfo = Option.none →
      extractInfluencerDoctors client = []) ∧
    (∀ (client : ClientDoc) (doctors : List DoctorEntry),
      client.additionalInfo = some doctors →
      extractInfluencerDoctors client =
        (doctors.filter
          (fun d => pyTruthy (d.isInfluencer.getD (PyVal.bool false)))).map
          (fun d => { name := d.name, phone := d.phone, email := d.email })) := by
  constructor
  · intro c h
    simp [extractInfluencerDoctors, h]
  · intro c ds h
    simp only [extractInfluencerDoctors, h]
    by_cases he : ds.isEmpty
    · rw [if_pos he, List.isEmpty_iff.mp he]
      rfl
    · rw [if_neg he]

/-- C8 (witness): the amended extraction rule instantiated on the client with
the truthy string flag. -/
theorem claim_c8_witness :
    extractInfluencerDoctors truthyFlagClient =
      (([{ name := "DrX", phone := "", email := "",
           isInfluencer := some (PyVal.str "yes") }] : List DoctorEntry).filter
        (fun d => pyTruthy (d.isInfluencer.getD (PyVal.bool false)))).map
        (fun d => { name := d.name, phone := d.phone, email := d.email }) :=
  claim_c8_amended.2 truthyFlagClient
    [{ name := "DrX", phone := "", email := "",
       isInfluencer := some (PyVal.str "yes") }] rfl

/-- C9: approval gating holds in all three triggers.  Every task written by
full materialization or by the product-added trigger belongs to a store
client whose state is "approved"; and the client-added trigger on a
non-approved client writes nothing, leaves the store unchanged, reports
`tasksCreated = 0`, and (for an otherwise well-formed client) returns a
successful 200 no-op. -/
theorem claim_c9_approval_gating :
    (∀ (payload : Option PlanDoc) (s : Store) (planUpdateOk : Bool)
        (failMany : List String → Bool)
        (failFew : List String → List String → Bool),
      ∀ t ∈ (createPlanTasks payload s planUpdateOk failMany failFew).commits.flatten,
        ∃ c ∈ s.clients, c.id = t.clientId ∧ c.state = "approved") ∧
    (∀ (productId planId : String) (targetSales : Option PyVal) (s : Store)
        (clientsQueryOk tpsOk cidsOk : Bool),
      ∀ t ∈ (createTasksFromProduct productId planId targetSales s clientsQueryOk tpsOk cidsOk).commits.flatten,
        ∃ c ∈ s.clients, c.id = t.clientId ∧ c.state = "approved") ∧
    (∀ (client : ClientDoc) (s : Store) (plansQueryOk : Bool)
        (unionOk : String → Bool),
      client.state ≠ "approved" →
      (createTasksForNewClient (some client) s plansQueryOk unionOk).commits = [] ∧
      (createTasksForNewClient (some client) s plansQueryOk unionOk).store = s ∧
      (createTasksForNewClient (some client) s plansQueryOk unionOk).resp.tasksCreated = 0 ∧
      (client.id ≠ "" → client.city ≠ "" → client.department ≠ "" →
        (createTasksForNewClient (some client) s plansQueryOk unionOk).resp.success = true ∧
        (createTasksForNewClient (some client) s plansQueryOk unionOk).resp.status = 200)) :=
  ⟨fun payload s p fM fF => (createPlanTasks_spec payload s p fM fF).2.2.2,
   fun pid plid ts s c t u =>
     (createTasksFromProduct_spec pid plid ts s c t u).2.2.2.1,
   fun client s q u h => newClient_not_approved client s q u h⟩

/-- C9 (witness): the gating instantiated on a task created by a concrete
run and on a concrete pending client. -/
theorem claim_c9_witness :
    (∃ c ∈ twoTaskStore.clients,
       c.id = ((twoTaskRun.commits.flatten.head (by decide)) : TaskDoc).clientId ∧
       c.state = "approved") ∧
    ({ demoClient with state := "pending" } : ClientDoc).state ≠ "approved" ∧
    (createTasksForNewClient (some { demoClient with state := "pending" })
        demoStore true (fun _ => true)).resp.tasksCreated = 0 :=
  ⟨claim_c9_approval_gating.1 (some demoPlan) twoTaskStore true (fun _ => false)
      (fun _ _ => false) _ (List.head_mem (by decide)),
   by decide,
   (claim_c9_approval_gating.2.2 { demoClient with state := "pending" }
      demoStore true (fun _ => true) (by decide)).2.2.1⟩

/-- C10: product ids with no document are silently dropped by
`_fetch_target_products_simple`.  For a non-empty requested id list, the
fetch raises exactly when no requested id resolves to a stored product, and
on success it returns exactly the stored products whose id was requested —
missing ids are absent from the result and trigger no report. -/
theorem claim_c10_missing_products_dropped (productIds : List PyVal)
    (products : List ProductDoc) (hne : productIds ≠ []) :
    ((fetchTargetProductsSimple productIds products =
        Except.error "No products found for IDs") ↔
      products.filter (fun p => productIds.contains (PyVal.str p.id)) = []) ∧
    (∀ l, fetchTargetProductsSimple productIds products = Except.ok l →
      l = products.filter (fun p => productIds.contains (PyVal.str p.id))) := by
  have e1 : ¬ productIds.isEmpty = true := by simpa [List.isEmpty_iff] using hne
  unfold fetchTargetProductsSimple
  rw [if_neg e1]
  by_cases hf :
    (products.filter (fun p => productIds.contains (PyVal.str p.id))).isEmpty
  · rw [if_pos hf]
    refine ⟨⟨fun _ => List.isEmpty_iff.mp hf, fun _ => rfl⟩, ?_⟩
    intro l hl
    exact Except.noConfusion hl
  · rw [if_neg hf]
    refine ⟨⟨fun h => Except.noConfusion h, fun h => absurd (List.isEmpty_iff.mpr h) hf⟩, ?_⟩
    intro l hl
    injection hl with hl
    exact hl.symm

/-- C10 (witness): the drop rule instantiated on a store where one of the two
requested ids is missing: the fetch succeeds and returns only the product
that exists. -/
theorem claim_c10_witness :
    ((fetchTargetProductsSimple [PyVal.str "pr1", PyVal.str "missing"]
        [demoProductDictMT] = Except.error "No products found for IDs") ↔
      [demoProductDictMT].filter (fun p =>
        [PyVal.str "pr1", PyVal.str "missing"].contains (PyVal.str p.id)) = []) ∧
    (∀ l, fetchTargetProductsSimple [PyVal.str "pr1", PyVal.str "missing"]
        [demoProductDictMT] = Except.ok l →
      l = [demoProductDictMT].filter (fun p =>
        [PyVal.str "pr1", PyVal.str "missing"].contains (PyVal.str p.id))) :=
  claim_c10_missing_products_dropped [PyVal.str "pr1", PyVal.str "missing"]
    [demoProductDictMT] (by decide)

/-- C5 (witness): the amended update protocol instantiated on the concrete
run whose `targetProductSales` update fails. -/
theorem claim_c5_witness :
    (createTasksFromProduct "pr1" "p1" (some (PyVal.int 5))
        productScenarioStore true false true).planUpdates = [] ∨
    ∃ items,
      (createTasksFromProduct "pr1" "p1" (some (PyVal.int 5))
          productScenarioStore true false true).planUpdates =
        [PlanUpdateEvent.setTargetProductSales "p1" items false] ∧
      (createTasksFromProduct "pr1" "p1" (some (PyVal.int 5))
          productScenarioStore true false true).resp.status = 500 ∧
      (createTasksFromProduct "pr1" "p1" (some (PyVal.int 5))
          productScenarioStore true false true).resp.success = false ∧
      (createTasksFromProduct "pr1" "p1" (some (PyVal.int 5))
          productScenarioStore true false true).store.tasks =
        productScenarioStore.tasks ++
          (createTasksFromProduct "pr1" "p1" (some (PyVal.int 5))
              productScenarioStore true false true).commits.flatten ∧
      (createTasksFromProduct "pr1" "p1" (some (PyVal.int 5))
          productScenarioStore true false true).resp.tasksCreated =
        (createTasksFromProduct "pr1" "p1" (some (PyVal.int 5))
            productScenarioStore true false true).commits.length :=
  (claim_c5_amended "pr1" "p1" (some (PyVal.int 5)) productScenarioStore true
    false true).1 rfl
